import Mathlib

/-!
Verification development for the `callgraph_analyzer` repository.

The Python sources are shallowly embedded: dictionaries become
insertion-ordered association lists, Python `set`s of strings become
duplicate-free lists built by `pySetAdd`, and the tree-sitter concrete
syntax trees (produced by the external parsing engine) become the
`TSNode` inductive, whose concrete values in this file model the CSTs
the external engine produces for the fixture sources.
-/

namespace CallGraph

/-! ## Python collection primitives -/

/-- Lookup in an insertion-ordered association list (Python `dict.get`). -/
def dictLookup {α : Type} (m : List (String × α)) (k : String) : Option α :=
  match m with
  | [] => none
  | (k', v) :: rest => if k' = k then some v else dictLookup rest k

/-- Python `d[k] = v`: overwrite in place, append if absent. -/
def dictSet {α : Type} (m : List (String × α)) (k : String) (v : α) :
    List (String × α) :=
  match m with
  | [] => [(k, v)]
  | (k', v') :: rest =>
      if k' = k then (k', v) :: rest else (k', v') :: dictSet rest k v

/-- Python `k in d`. -/
def dictContains {α : Type} (m : List (String × α)) (k : String) : Bool :=
  (dictLookup m k).isSome

/-- Python `d.keys()` (keys are unique in an actual dict). -/
def dictKeys {α : Type} (m : List (String × α)) : List String :=
  m.map Prod.fst

/-- Update the value stored at an existing key, leaving the dict
unchanged when the key is absent. -/
def dictUpdate {α : Type} (m : List (String × α)) (k : String) (f : α → α) :
    List (String × α) :=
  match m with
  | [] => []
  | (k', v) :: rest =>
      if k' = k then (k', f v) :: rest else (k', v) :: dictUpdate rest k f

/-- Python `s.add(x)` on a set of strings, modelled as a duplicate-free
list in first-insertion order. -/
def pySetAdd (s : List String) (x : String) : List String :=
  if x ∈ s then s else s ++ [x]

/-- Python `set(xs)` built from a list. -/
def pySetOfList (xs : List String) : List String :=
  xs.foldl pySetAdd []

/-! Character-list based string operations. Python strings are character
sequences; these helpers mirror the Python operations on `String.data`
(so that concrete evaluation stays within kernel-reducible list code). -/

/-- Python `s.endswith(suffix)`. -/
def strEndsWith (s suffix : String) : Bool :=
  suffix.data.isSuffixOf s.data

/-- Python `s.startswith(pre)`. -/
def strStartsWith (s pre : String) : Bool :=
  pre.data.isPrefixOf s.data

/-- Python `s[:-n]`. -/
def strDropRight (s : String) (n : Nat) : String :=
  ⟨s.data.take (s.data.length - n)⟩

/-- Python `s[n:]`. -/
def strDrop (s : String) (n : Nat) : String :=
  ⟨s.data.drop n⟩

/-- Substring scan over character lists. -/
def charsContain (hay pat : List Char) : Bool :=
  match hay with
  | [] => pat.isEmpty
  | _ :: rest => pat.isPrefixOf hay || charsContain rest pat

/-- Python substring test `pat in s`. -/
def strContains (s pat : String) : Bool :=
  charsContain s.data pat.data

/-- Python `"\n".join(lines)`. -/
def joinLines : List String → String
  | [] => ""
  | [s] => s
  | s :: rest => s ++ "\n" ++ joinLines rest

/-- Split a character list at a separator character. -/
def splitChars (sep : Char) : List Char → List (List Char)
  | [] => [[]]
  | c :: cs =>
      let rest := splitChars sep cs
      if c = sep then [] :: rest
      else
        match rest with
        | [] => [[c]]
        | seg :: segs => (c :: seg) :: segs

/-- Python `s.split(sep)` for a one-character separator. -/
def strSplit (s : String) (sep : Char) : List String :=
  (splitChars sep s.data).map (fun cs => ⟨cs⟩)

/-- Python `s.split(sep)[-1]` (the list is never empty). -/
def lastSplitSegment (s : String) (sep : Char) : String :=
  match (strSplit s sep).getLast? with
  | some seg => seg
  | none => s

/-- Python `s.replace(old_char, new)`. -/
def pyReplaceChar (s : String) (old : Char) (new : String) : String :=
  ⟨s.data.foldr (fun c acc => if c = old then new.data ++ acc else c :: acc) []⟩

/-- Python `"s" * n`. -/
def pyRepeat (s : String) (n : Nat) : String :=
  match n with
  | 0 => ""
  | n + 1 => s ++ pyRepeat s n

/-- Stable insertion (after all entries with a key `≤` the new one),
used to model Python's stable `list.sort(key=...)`. -/
def stableInsertBy {α : Type} (key : α → Nat) (x : α) : List α → List α
  | [] => [x]
  | y :: ys =>
      if key y ≤ key x then y :: stableInsertBy key x ys else x :: y :: ys

/-- Python's stable `list.sort(key=...)`. -/
def stableSortBy {α : Type} (key : α → Nat) (xs : List α) : List α :=
  xs.foldl (fun acc x => stableInsertBy key x acc) []

/-! ## Data model (`src/models.py`) -/

/-- `models.Node`: one declared code component. -/
structure Node where
  id : String := ""
  name : String := ""
  component_type : String := "function"
  file_path : String := ""
  relative_path : String := ""
  source_code : String := ""
  start_line : Nat := 0
  end_line : Nat := 0
  has_docstring : Bool := false
  docstring : String := ""
  parameters : Option (List String) := none
  node_type : String := "function"
  base_classes : Option (List String) := none
  class_name : Option String := none
  display_name : String := ""
  component_id : String := ""
  depends_on : List String := []
  api_url : Option String := none
  http_method : Option String := none
deriving Repr, DecidableEq

/-- `models.CallRelationship`: one directed edge from single-file analysis. -/
structure CallRelationship where
  caller : String := ""
  callee : String := ""
  call_line : Nat := 0
  is_resolved : Bool := false
deriving Repr, DecidableEq

/-- The dictionary projection `Node.model_dump` (only the `depends_on`
entry changes representation: the in-memory set is rendered as a list). -/
structure NodeDump where
  id : String
  name : String
  component_type : String
  file_path : String
  relative_path : String
  source_code : String
  start_line : Nat
  end_line : Nat
  has_docstring : Bool
  docstring : String
  parameters : Option (List String)
  node_type : String
  base_classes : Option (List String)
  class_name : Option String
  display_name : String
  component_id : String
  depends_on : List String
  api_url : Option String
  http_method : Option String
deriving Repr, DecidableEq

/-- `Node.model_dump` from `src/models.py`: every field copied verbatim,
`depends_on` rendered as the ordered sequence `list(self.depends_on)`. -/
def modelDump (n : Node) : NodeDump :=
  { id := n.id
    name := n.name
    component_type := n.component_type
    file_path := n.file_path
    relative_path := n.relative_path
    source_code := n.source_code
    start_line := n.start_line
    end_line := n.end_line
    has_docstring := n.has_docstring
    docstring := n.docstring
    parameters := n.parameters
    node_type := n.node_type
    base_classes := n.base_classes
    class_name := n.class_name
    display_name := n.display_name
    component_id := n.component_id
    depends_on := n.depends_on
    api_url := n.api_url
    http_method := n.http_method }

/-! ## Dependency graph builder (`src/dependency_graph_builder.py`) -/

/-- The slice of a reloaded function dictionary that
`build_dependency_graph` reads: the `id` key and the serialized
`depends_on` sequence. -/
structure FuncData where
  id : String
  depends_on : List String
deriving Repr, DecidableEq

/-- A relationship dictionary as consumed by the builder. -/
structure RelData where
  caller : String
  callee : String
deriving Repr, DecidableEq

/-- Component record held in the builder's map. -/
structure NodeC where
  id : String
  depends_on : List String
deriving Repr, DecidableEq

/-- First phase of `build_dependency_graph`: convert every function
dictionary into a `Node` keyed by its id, normalizing `depends_on` from
the stored list back to a set. -/
def buildComponentsInit (funcs : List FuncData) : List (String × NodeC) :=
  funcs.foldl
    (fun comps f =>
      dictSet comps f.id { id := f.id, depends_on := pySetOfList f.depends_on })
    []

/-- Second phase: replay every relationship whose caller is a known
component (and whose callee id is truthy, i.e. non-empty), inserting the
callee id into the caller's `depends_on`. -/
def populateDependsOn (comps : List (String × NodeC))
    (rels : List RelData) : List (String × NodeC) :=
  rels.foldl
    (fun comps rel =>
      if dictContains comps rel.caller = true ∧ rel.callee ≠ "" then
        dictUpdate comps rel.caller
          (fun nd => { nd with depends_on := pySetAdd nd.depends_on rel.callee })
      else comps)
    comps

/-- `DependencyGraphBuilder.build_dependency_graph`, with the
orchestration result (functions and relationships) passed explicitly. -/
def build_dependency_graph (funcs : List FuncData) (rels : List RelData) :
    List (String × NodeC) :=
  populateDependsOn (buildComponentsInit funcs) rels

/-- `DependencyGraphBuilder._get_leaf_nodes`: start from all component
ids, and discard a caller whenever one of its relationships targets a
callee that is itself a key of the component map. -/
def get_leaf_nodes (comps : List (String × NodeC)) (rels : List RelData) :
    List String :=
  rels.foldl
    (fun pot rel =>
      if rel.caller ∈ pot ∧ dictContains comps rel.callee = true then
        pot.filter (fun c => c ≠ rel.caller)
      else pot)
    (dictKeys comps)

/-! ## Shared relationship deduplication (`_add_relationship` in
`src/analyzers/c.py`, `cpp.py`, `csharp.py`, `php.py`) -/

/-- Analyzer relationship state: the `seen_relationships` key set and the
accumulated `call_relationships` list. -/
structure RelState where
  seen : List (String × String × Nat)
  rels : List CallRelationship
deriving Repr, DecidableEq

def RelState.empty : RelState := { seen := [], rels := [] }

/-- The dedup key `(caller, callee, call_line)`. -/
def relKey (r : CallRelationship) : String × String × Nat :=
  (r.caller, r.callee, r.call_line)

/-- `_add_relationship`, shared verbatim by the C, C++, C# and PHP
analyzers: append only if the triple has not been seen. -/
def addRelationship (st : RelState) (r : CallRelationship) : RelState :=
  if relKey r ∈ st.seen then st
  else { seen := st.seen ++ [relKey r], rels := st.rels ++ [r] }

/-- Routing a whole candidate sequence through `_add_relationship`. -/
def addRelationships (st : RelState) (cands : List CallRelationship) : RelState :=
  cands.foldl addRelationship st

/-! ## Tree-sitter concrete syntax trees (external parsing engine)

A CST node exposes a type tag, its source text, zero-based start/end
rows and its children (anonymous token nodes included, as in
tree-sitter's `node.children`). -/

inductive TSNode where
  | mk (ty : String) (text : String) (row : Nat) (erow : Nat)
      (children : List TSNode)

def TSNode.ty : TSNode → String
  | .mk t _ _ _ _ => t

def TSNode.text : TSNode → String
  | .mk _ tx _ _ _ => tx

def TSNode.row : TSNode → Nat
  | .mk _ _ r _ _ => r

def TSNode.erow : TSNode → Nat
  | .mk _ _ _ e _ => e

def TSNode.children : TSNode → List TSNode
  | .mk _ _ _ _ cs => cs

/-- `_find_child_by_type`: first child with the given type tag. -/
def tsFindChildByType (n : TSNode) (t : String) : Option TSNode :=
  n.children.find? (fun c => c.ty = t)

/-- `next((c for c in node.children if c.type == "identifier"), None).text`. -/
def tsFirstChildText (n : TSNode) (t : String) : Option String :=
  (tsFindChildByType n t).map TSNode.text

/-! ## C analyzer (`src/analyzers/c.py`) -/

/-- Strip the first matching extension (`for ext in exts: ... break`). -/
def stripFirstExt (exts : List String) (p : String) : String :=
  match exts with
  | [] => p
  | e :: rest =>
      if strEndsWith p e then strDropRight p e.data.length
      else stripFirstExt rest p

/-- `.replace('/', '.').replace('\\', '.')`. -/
def dotifySeparators (p : String) : String :=
  ⟨p.data.map (fun c => if c = '/' ∨ c = '\\' then '.' else c)⟩

/-- `TreeSitterCAnalyzer._get_module_path` for an analyzer constructed
without a repository root (`repo_path = ""`), where `rel_path` is the
raw file path. -/
def cGetModulePath (filePath : String) : String :=
  dotifySeparators (stripFirstExt [".c", ".h"] filePath)

/-- `TreeSitterCAnalyzer._get_component_id`. -/
def cGetComponentId (filePath name : String) : String :=
  cGetModulePath filePath ++ "." ++ name

mutual
/-- `_extract_function_name` on a declarator node: the node's own text if
it is an identifier, otherwise scan children, recursing into
`function_declarator`/`init_declarator` children. -/
def cExtractFunctionName : TSNode → Option String
  | .mk ty tx _ _ cs =>
      if ty = "identifier" then some tx
      else cExtractFunctionNameLoop cs

def cExtractFunctionNameLoop : List TSNode → Option String
  | [] => none
  | c :: cs =>
      if c.ty = "identifier" then some c.text
      else if c.ty = "function_declarator" ∨ c.ty = "init_declarator" then
        match cExtractFunctionName c with
        | some nm => some nm
        | none => cExtractFunctionNameLoop cs
      else cExtractFunctionNameLoop cs
end

mutual
/-- `_extract_parameter_name`: first identifier found depth-first,
skipping `parameter_list` children. -/
def cExtractParameterName : TSNode → Option String
  | .mk _ _ _ _ cs => cExtractParameterNameLoop cs

def cExtractParameterNameLoop : List TSNode → Option String
  | [] => none
  | c :: cs =>
      if c.ty = "identifier" then some c.text
      else if c.ty = "parameter_list" then cExtractParameterNameLoop cs
      else
        match cExtractParameterName c with
        | some nm => some nm
        | none => cExtractParameterNameLoop cs
end

/-- Names of `parameter_declaration` children of a `parameter_list`. -/
def cParamsOfParameterList (cs : List TSNode) : List String :=
  match cs with
  | [] => []
  | p :: rest =>
      if p.ty = "parameter_declaration" then
        match cExtractParameterName p with
        | some nm => nm :: cParamsOfParameterList rest
        | none => cParamsOfParameterList rest
      else cParamsOfParameterList rest

mutual
/-- `_extract_parameters`: collect from `parameter_list` children,
recursing into every other child. -/
def cExtractParameters : TSNode → List String
  | .mk _ _ _ _ cs => cExtractParametersLoop cs

def cExtractParametersLoop : List TSNode → List String
  | [] => []
  | c :: cs =>
      if c.ty = "parameter_list" then
        cParamsOfParameterList c.children ++ cExtractParametersLoop cs
      else cExtractParameters c ++ cExtractParametersLoop cs
end

/-- Analyzer context: the file path and the content's lines
(`content.splitlines()`). -/
structure CCtx where
  filePath : String
  lines : List String

/-- `"\n".join(content.splitlines()[a : b])`. -/
def sliceLines (lines : List String) (a b : Nat) : String :=
  joinLines ((lines.drop a).take (b - a))

/-- `_extract_function_definition`. -/
def cExtractFunctionDefinition (ctx : CCtx) (n : TSNode) : Option Node :=
  match n.children.find? (fun c => c.ty = "declarator" ∨ c.ty = "function_declarator") with
  | none => none
  | some declarator =>
      match cExtractFunctionName declarator with
      | none => none
      | some name =>
          let lineStart := n.row + 1
          let lineEnd := n.erow + 1
          let componentId := cGetComponentId ctx.filePath name
          some
            { id := componentId
              name := name
              component_type := "function"
              file_path := ctx.filePath
              relative_path := ctx.filePath
              source_code := sliceLines ctx.lines (lineStart - 1) lineEnd
              start_line := lineStart
              end_line := lineEnd
              has_docstring := false
              docstring := ""
              parameters := some (cExtractParameters declarator)
              node_type := "function"
              base_classes := none
              class_name := none
              display_name := "function " ++ name
              component_id := componentId }

/-- `_extract_function_declaration` (on `function_declarator` /
`init_declarator` nodes met during traversal). -/
def cExtractFunctionDeclaration (ctx : CCtx) (n : TSNode) : Option Node :=
  match cExtractFunctionName n with
  | none => none
  | some name =>
      let lineStart := n.row + 1
      let lineEnd := n.erow + 1
      let componentId := cGetComponentId ctx.filePath name
      some
        { id := componentId
          name := name
          component_type := "function"
          file_path := ctx.filePath
          relative_path := ctx.filePath
          source_code := n.text
          start_line := lineStart
          end_line := lineEnd
          has_docstring := false
          docstring := ""
          parameters := some (cExtractParameters n)
          node_type := "function"
          base_classes := none
          class_name := none
          display_name := "function " ++ name
          component_id := componentId }

/-- The fixed C standard-library exclusion list of
`_should_include_function`. -/
def cExcludedNames : List String :=
  ["main", "printf", "scanf", "malloc", "free", "strlen",
   "strcpy", "strcmp", "atoi", "itoa", "exit", "assert",
   "fopen", "fclose", "fread", "fwrite", "fprintf", "fscanf",
   "puts", "gets", "exit", "abort"]

def cShouldIncludeFunction (f : Node) : Bool :=
  !(cExcludedNames.contains f.name)

mutual
/-- `_traverse_for_functions`: the sequence of included declaration
nodes appended during the preorder walk (the traversal only ever appends
to `self.nodes` and `self.top_level_nodes`, so it is modelled as a pure
accumulation; the dict keys are recovered from the same sequence below). -/
def cTraverseForFunctions (ctx : CCtx) : TSNode → List Node
  | n@(.mk ty _ _ _ cs) =>
      let here :=
        if ty = "function_definition" then
          match cExtractFunctionDefinition ctx n with
          | some f => if cShouldIncludeFunction f then [f] else []
          | none => []
        else if ty = "function_declarator" ∨ ty = "init_declarator" then
          match cExtractFunctionDeclaration ctx n with
          | some f => if cShouldIncludeFunction f then [f] else []
          | none => []
        else []
      here ++ cTraverseForFunctionsList ctx cs

def cTraverseForFunctionsList (ctx : CCtx) : List TSNode → List Node
  | [] => []
  | c :: cs => cTraverseForFunctions ctx c ++ cTraverseForFunctionsList ctx cs
end

/-- `_extract_functions`: traverse, then `self.nodes.sort(key=start_line)`
(Python's sort is stable). -/
def cExtractFunctions (ctx : CCtx) (root : TSNode) : List Node :=
  stableSortBy Node.start_line (cTraverseForFunctions ctx root)

/-- The keys of `self.top_level_nodes` after the declaration phase: one
entry per included declaration, keyed by name, first insertion kept. -/
def cTopLevelKeys (ctx : CCtx) (root : TSNode) : List String :=
  pySetOfList ((cTraverseForFunctions ctx root).map Node.name)

/-- First `field_identifier` child's text (for `struct.function` calls). -/
def cFieldIdentifierText (cs : List TSNode) : Option String :=
  ((cs.find? (fun c => c.ty = "field_identifier")).map TSNode.text)

/-- `_extract_callee_name`: scan children for an identifier, a
`field_expression`'s field identifier, or a function-pointer declarator;
fall back to the first child. -/
def cExtractCalleeNameLoop : List TSNode → Option String
  | [] => none
  | c :: cs =>
      if c.ty = "identifier" then some c.text
      else if c.ty = "field_expression" then
        match cFieldIdentifierText c.children with
        | some t => some t
        | none => cExtractCalleeNameLoop cs
      else if c.ty = "function_declarator" then
        match cExtractFunctionName c with
        | some nm => some nm
        | none => cExtractCalleeNameLoop cs
      else cExtractCalleeNameLoop cs

def cExtractCalleeName (call : TSNode) : Option String :=
  match cExtractCalleeNameLoop call.children with
  | some t => some t
  | none =>
      match call.children.head? with
      | some first =>
          if first.ty = "identifier" then some first.text
          else if first.ty = "field_expression" then
            cFieldIdentifierText first.children
          else none
      | none => none

/-- `_extract_call_from_node` (caller filled in by the traversal). -/
def cExtractCallFromNode (ctx : CCtx) (topKeys : List String) (n : TSNode) :
    Option CallRelationship :=
  match cExtractCalleeName n with
  | none => none
  | some calleeName =>
      some
        { caller := ""
          callee := cGetModulePath ctx.filePath ++ "." ++ calleeName
          call_line := n.row + 1
          is_resolved := topKeys.contains calleeName }

mutual
/-- `_traverse_for_calls`: the sequence of call relationships handed to
`_add_relationship`, in traversal order (the dedup state is only
written, never read, by the traversal itself, so the candidates are
collected purely and routed through `_add_relationship` afterwards). -/
def cTraverseForCalls (ctx : CCtx) (topKeys : List String)
    (current : Option String) : TSNode → List CallRelationship
  | n@(.mk ty _ _ _ cs) =>
      let here :=
        if ty = "call_expression" then
          match cExtractCallFromNode ctx topKeys n with
          | some callInfo =>
              match current with
              | some cur =>
                  [{ callInfo with
                       caller := cGetModulePath ctx.filePath ++ "." ++ cur }]
              | none => []
          | none => []
        else []
      let current1 :=
        if ty = "function_definition" then
          match cs.find? (fun c => c.ty = "declarator" ∨ c.ty = "function_declarator") with
          | some declarator => cExtractFunctionName declarator
          | none => current
        else current
      here ++ cTraverseForCallsList ctx topKeys current1 cs

def cTraverseForCallsList (ctx : CCtx) (topKeys : List String)
    (current : Option String) : List TSNode → List CallRelationship
  | [] => []
  | c :: cs =>
      cTraverseForCalls ctx topKeys current c ++
        cTraverseForCallsList ctx topKeys current cs
end

/-- `TreeSitterCAnalyzer.analyze` on an already-parsed CST: extract
declarations, then call relationships (deduplicated by
`_add_relationship`). -/
def cAnalyze (ctx : CCtx) (root : TSNode) : List Node × List CallRelationship :=
  let nodes := cExtractFunctions ctx root
  let keys := cTopLevelKeys ctx root
  (nodes, (addRelationships RelState.empty (cTraverseForCalls ctx keys none root)).rels)

/-! ## Preorder traversal with ancestor frames

Python's analyzers walk the CST recursively and consult `node.parent`
chains. The walk is modelled as the preorder list of `(node, frames)`
pairs, where each frame records an ancestor together with the index of
the child descended into — so `frames.map Prod.fst` is the parent chain
(closest first) and the head frame's index is the node's position among
its parent's children. -/

mutual
def tsPreorder (frames : List (TSNode × Nat)) :
    TSNode → List (TSNode × List (TSNode × Nat))
  | n@(.mk _ _ _ _ cs) => (n, frames) :: tsPreorderList n frames 0 cs

def tsPreorderList (parent : TSNode) (frames : List (TSNode × Nat)) (i : Nat) :
    List TSNode → List (TSNode × List (TSNode × Nat))
  | [] => []
  | c :: cs =>
      tsPreorder ((parent, i) :: frames) c ++ tsPreorderList parent frames (i + 1) cs
end

/-! ## Java analyzer (`src/analyzers/java.py`) -/

/-- `TreeSitterJavaAnalyzer._get_module_path` for an analyzer without a
repository root. -/
def jGetModulePath (filePath : String) : String :=
  dotifySeparators (stripFirstExt [".java"] filePath)

/-- `_get_component_id` (the `parent_class` argument is never supplied). -/
def jGetComponentId (filePath name : String) : String :=
  jGetModulePath filePath ++ "." ++ name

/-- The fixed primitive/common-type exclusion set `_is_primitive_type`. -/
def jPrimitives : List String :=
  ["boolean", "byte", "char", "double", "float", "int", "long", "short",
   "Boolean", "Byte", "Character", "Double", "Float", "Integer", "Long", "Short",
   "String", "Object", "List", "Set", "Map", "Collection", "Optional",
   "void", "Void"]

def jIsPrimitiveType (typeName : String) : Bool :=
  jPrimitives.contains typeName

/-- `_get_identifier_name`: first `identifier` child's text. -/
def jGetIdentifierName (n : TSNode) : Option String :=
  tsFirstChildText n "identifier"

/-- `_get_type_name`. -/
def jGetTypeName (n : TSNode) : Option String :=
  if n.ty = "type_identifier" then some n.text
  else if n.ty = "generic_type" then tsFirstChildText n "type_identifier"
  else if n.ty = "superclass" then tsFirstChildText n "type_identifier"
  else none

/-- `_find_containing_class_name`: walk the parent chain for the first
class-like ancestor that has an identifier child. -/
def jFindContainingClassName (ancs : List TSNode) : Option String :=
  match ancs with
  | [] => none
  | a :: rest =>
      if a.ty = "class_declaration" ∨ a.ty = "interface_declaration" ∨
          a.ty = "enum_declaration" ∨ a.ty = "record_declaration" then
        match jGetIdentifierName a with
        | some nm => some nm
        | none => jFindContainingClassName rest
      else jFindContainingClassName rest

/-- `_find_containing_class`: first class-like ancestor whose name is a
key of `top_level_nodes`, returned as a component id. -/
def jFindContainingClass (filePath : String) (topKeys : List String)
    (ancs : List TSNode) : Option String :=
  match ancs with
  | [] => none
  | a :: rest =>
      if a.ty = "class_declaration" ∨ a.ty = "interface_declaration" ∨
          a.ty = "enum_declaration" ∨ a.ty = "record_declaration" ∨
          a.ty = "annotation_type_declaration" then
        match jGetIdentifierName a with
        | some nm =>
            if nm ≠ "" ∧ nm ∈ topKeys then some (jGetComponentId filePath nm)
            else jFindContainingClass filePath topKeys rest
        | none => jFindContainingClass filePath topKeys rest
      else jFindContainingClass filePath topKeys rest

/-- `_find_containing_method`: first `method_declaration` ancestor with
both a method name and a containing class name. -/
def jFindContainingMethod (filePath : String) (ancs : List TSNode) :
    Option String :=
  match ancs with
  | [] => none
  | a :: rest =>
      if a.ty = "method_declaration" then
        match jGetIdentifierName a, jFindContainingClassName rest with
        | some mname, some cname =>
            if mname ≠ "" ∧ cname ≠ "" then
              some (jGetComponentId filePath (cname ++ "." ++ mname))
            else jFindContainingMethod filePath rest
        | _, _ => jFindContainingMethod filePath rest
      else jFindContainingMethod filePath rest

mutual
/-- `_find_class_node_by_name`: preorder search from the root. -/
def jFindClassNodeByName (className : String) : TSNode → Option TSNode
  | n@(.mk ty _ _ _ cs) =>
      if ty = "class_declaration" ∧
          (tsFirstChildText n "identifier") = some className then some n
      else jFindClassNodeByNameList className cs

def jFindClassNodeByNameList (className : String) :
    List TSNode → Option TSNode
  | [] => none
  | c :: cs =>
      match jFindClassNodeByName className c with
      | some r => some r
      | none => jFindClassNodeByNameList className cs
end

/-- Python `text[1:-1]` used to strip string-literal quotes. -/
def stripEnds (s : String) : String :=
  ⟨(s.data.drop 1).dropLast⟩

/-- The Spring route-bearing annotation names. -/
def jSpringMappingNames : List String :=
  ["RequestMapping", "GetMapping", "PostMapping", "PutMapping",
   "DeleteMapping", "PatchMapping"]

/-- First `string_literal` element of an `element_value_array_initializer`
whose text is quoted, stripped of quotes. -/
def jFirstArrayStringLiteral : List TSNode → Option String
  | [] => none
  | e :: es =>
      if e.ty = "string_literal" ∧ strStartsWith e.text "\"" = true ∧
          strEndsWith e.text "\"" = true then
        some (stripEnds e.text)
      else jFirstArrayStringLiteral es

/-- The `element_value_pair` handling of `_parse_annotation_for_url`:
a `value=`/`path=` key with a string literal (or the first string
literal of an array initializer). -/
def jUrlOfElementValuePair (arg : TSNode) : Option String :=
  match tsFindChildByType arg "identifier" with
  | none => none
  | some keyNode =>
      if keyNode.text = "value" ∨ keyNode.text = "path" then
        match arg.children.find?
            (fun c => c.ty = "string_literal" ∨ c.ty = "element_value_array_initializer") with
        | none => none
        | some valueNode =>
            if valueNode.ty = "string_literal" then
              if strStartsWith valueNode.text "\"" ∧ strEndsWith valueNode.text "\"" then
                some (stripEnds valueNode.text)
              else none
            else jFirstArrayStringLiteral valueNode.children
      else none

/-- The argument loop of `_parse_annotation_for_url`. -/
def jUrlOfAnnotationArgs : List TSNode → Option String
  | [] => none
  | arg :: args =>
      if arg.ty = "element_value_pair" then
        match jUrlOfElementValuePair arg with
        | some url => some url
        | none => jUrlOfAnnotationArgs args
      else if arg.ty = "string_literal" then
        if strStartsWith arg.text "\"" ∧ strEndsWith arg.text "\"" then
          some (stripEnds arg.text)
        else jUrlOfAnnotationArgs args
      else jUrlOfAnnotationArgs args

/-- `_parse_annotation_for_url`: recognize a Spring mapping annotation
(by simple name, tolerating dotted qualified names) and read its route. -/
def parseAnnotationForUrl (annotationNode : TSNode) : Option String :=
  match tsFirstChildText annotationNode "identifier" with
  | none => none
  | some annotationName =>
      let isSpring :=
        annotationName ∈ jSpringMappingNames ∨
          (lastSplitSegment annotationName '.') ∈ jSpringMappingNames
      if isSpring then
        match tsFindChildByType annotationNode "annotation_argument_list" with
        | some argList => jUrlOfAnnotationArgs argList.children
        | none => none
      else none

/-- First successful parse among `annotation` children. -/
def jUrlOfAnnotationList : List TSNode → Option String
  | [] => none
  | c :: cs =>
      if c.ty = "annotation" then
        match parseAnnotationForUrl c with
        | some url => if url ≠ "" then some url else jUrlOfAnnotationList cs
        | none => jUrlOfAnnotationList cs
      else jUrlOfAnnotationList cs

/-- Scan of one `modifiers` child in `_extract_api_url_from_annotations`:
direct annotations, plus annotations nested one level inside a
`marker_annotation`. -/
def jUrlOfModifierChildren : List TSNode → Option String
  | [] => none
  | m :: ms =>
      if m.ty = "annotation" then
        match parseAnnotationForUrl m with
        | some url => if url ≠ "" then some url else jUrlOfModifierChildren ms
        | none => jUrlOfModifierChildren ms
      else if m.ty = "marker_annotation" then
        match jUrlOfAnnotationList m.children with
        | some url => some url
        | none => jUrlOfModifierChildren ms
      else jUrlOfModifierChildren ms

/-- The modifiers pass of `_extract_api_url_from_annotations`. -/
def jUrlOfMethodModifiers : List TSNode → Option String
  | [] => none
  | c :: cs =>
      if c.ty = "modifiers" then
        match jUrlOfModifierChildren c.children with
        | some url => some url
        | none => jUrlOfMethodModifiers cs
      else jUrlOfMethodModifiers cs

/-- The preceding-siblings pass of `_extract_api_url_from_annotations`
(`for j in range(i-1, -1, -1)`): scan earlier siblings, nearest first;
a `class_body` sibling is searched one level deep for annotations. -/
def jUrlOfPrecedingSiblings : List TSNode → Option String
  | [] => none
  | sib :: sibs =>
      if sib.ty = "annotation" then
        match parseAnnotationForUrl sib with
        | some url => if url ≠ "" then some url else jUrlOfPrecedingSiblings sibs
        | none => jUrlOfPrecedingSiblings sibs
      else if sib.ty = "class_body" then
        match jUrlOfAnnotationList sib.children with
        | some url => some url
        | none => jUrlOfPrecedingSiblings sibs
      else jUrlOfPrecedingSiblings sibs

/-- `_extract_api_url_from_annotations`: the method's own modifier
annotations first, then the siblings immediately preceding the method
inside its parent. -/
def jExtractApiUrl (methodNode : TSNode) (frames : List (TSNode × Nat)) :
    Option String :=
  match jUrlOfMethodModifiers methodNode.children with
  | some url => some url
  | none =>
      match frames with
      | [] => none
      | (parent, i) :: _ =>
          jUrlOfPrecedingSiblings (parent.children.take i).reverse

/-- `_is_controller_class`: a class-level annotation (direct, or nested
one level inside a marker annotation) whose simple name is `Controller`
or `RestController`. -/
def jIsControllerAnnotation (modifierChild : TSNode) : Bool :=
  let annotationNode :=
    if modifierChild.ty = "marker_annotation" then
      match modifierChild.children.find? (fun c => c.ty = "annotation") with
      | some inner => inner
      | none => modifierChild
    else modifierChild
  match tsFirstChildText annotationNode "identifier" with
  | some nm => (lastSplitSegment nm '.') ∈ ["Controller", "RestController"]
  | none => false

def jIsControllerClass (classNode : TSNode) : Bool :=
  classNode.children.any (fun child =>
    child.ty = "modifiers" ∧
      child.children.any (fun m =>
        (m.ty = "annotation" ∨ m.ty = "marker_annotation") ∧
          jIsControllerAnnotation m))

/-- The argument loop of `_extract_path_prefix_from_class_annotations`
(arrays are recognized but only direct string literals produce a value). -/
def jClassPfxOfArgs : List TSNode → Option String
  | [] => none
  | arg :: args =>
      if arg.ty = "element_value_pair" then
        match tsFindChildByType arg "identifier" with
        | some keyNode =>
            if keyNode.text = "value" ∨ keyNode.text = "path" then
              match arg.children.find?
                  (fun c => c.ty = "string_literal" ∨ c.ty = "element_value_array_initializer") with
              | some valueNode =>
                  if valueNode.ty = "string_literal" ∧
                      strStartsWith valueNode.text "\"" = true ∧
                      strEndsWith valueNode.text "\"" = true then
                    some (stripEnds valueNode.text)
                  else jClassPfxOfArgs args
              | none => jClassPfxOfArgs args
            else jClassPfxOfArgs args
        | none => jClassPfxOfArgs args
      else if arg.ty = "string_literal" then
        if strStartsWith arg.text "\"" ∧ strEndsWith arg.text "\"" then
          some (stripEnds arg.text)
        else jClassPfxOfArgs args
      else jClassPfxOfArgs args

/-- One annotation of `_extract_path_prefix_from_class_annotations`. -/
def jClassPfxOfAnnotation (m : TSNode) : Option String :=
  match tsFirstChildText m "identifier" with
  | none => none
  | some annotationName =>
      if (lastSplitSegment annotationName '.') ∈ jSpringMappingNames then
        match tsFindChildByType m "annotation_argument_list" with
        | some argList => jClassPfxOfArgs argList.children
        | none => none
      else none

def jClassPfxOfModifierChildren : List TSNode → Option String
  | [] => none
  | m :: ms =>
      if m.ty = "annotation" then
        match jClassPfxOfAnnotation m with
        | some p => some p
        | none => jClassPfxOfModifierChildren ms
      else jClassPfxOfModifierChildren ms

def jClassPfxOfModifiers : List TSNode → Option String
  | [] => none
  | child :: rest =>
      if child.ty = "modifiers" then
        match jClassPfxOfModifierChildren child.children with
        | some p => some p
        | none => jClassPfxOfModifiers rest
      else jClassPfxOfModifiers rest

/-- `_extract_path_prefix_from_class_annotations`: first Spring mapping
annotation among the class modifiers that yields a route value. -/
def jExtractClassPathPfx (classNode : TSNode) : Option String :=
  jClassPfxOfModifiers classNode.children

/-- The URL concatenation rule of `_extract_nodes` (java.py lines
140-145): drop one slash when both sides contribute one, insert one when
neither does, otherwise concatenate directly. -/
def combineApiUrl (pathPfx apiUrl : String) : String :=
  if strEndsWith pathPfx "/" = true ∧ strStartsWith apiUrl "/" = true then
    pathPfx ++ strDrop apiUrl 1
  else if strEndsWith pathPfx "/" = false ∧ strStartsWith apiUrl "/" = false then
    pathPfx ++ "/" ++ apiUrl
  else pathPfx ++ apiUrl

/-- Java analyzer context: the file path and the content lines. -/
structure JCtx where
  filePath : String
  lines : List String

/-- The declared type tag and name of `_extract_nodes`'s branches. -/
def jNodeTypeAndName (n : TSNode) (ancs : List TSNode) :
    Option String × Option String :=
  if n.ty = "class_declaration" then
    let isAbstract :=
      n.children.any (fun c => c.ty = "modifier" ∧ c.text = "abstract")
    ((some (if isAbstract then "abstract class" else "class")),
      tsFirstChildText n "identifier")
  else if n.ty = "interface_declaration" then
    (some "interface", tsFirstChildText n "identifier")
  else if n.ty = "enum_declaration" then
    (some "enum", tsFirstChildText n "identifier")
  else if n.ty = "record_declaration" then
    (some "record", tsFirstChildText n "identifier")
  else if n.ty = "annotation_type_declaration" then
    (some "annotation", tsFirstChildText n "identifier")
  else if n.ty = "method_declaration" then
    match tsFirstChildText n "identifier" with
    | none => (some "method", none)
    | some methodName =>
        match jFindContainingClassName ancs with
        | some cname =>
            if cname ≠ "" then (some "method", some (cname ++ "." ++ methodName))
            else (some "method", some methodName)
        | none => (some "method", some methodName)
  else (none, none)

/-- The controller-detection and api-url logic of `_extract_nodes` for a
`method_declaration` node. -/
def jApiUrlForMethod (root : TSNode) (n : TSNode)
    (frames : List (TSNode × Nat)) : Option String :=
  let ancs := frames.map Prod.fst
  let containingOpt := jFindContainingClassName ancs
  let ctrlAndPfx :=
    match containingOpt with
    | none => (false, (none : Option String))
    | some cname =>
      if cname = "" then (false, (none : Option String)) else
        let byAnnot :=
          match jFindClassNodeByName cname root with
          | some classNode =>
              (jIsControllerClass classNode, jExtractClassPathPfx classNode)
          | none => (false, none)
        let isCtrl :=
          if byAnnot.1 then true
          else strContains cname "Controller" || strContains cname "controller"
        (isCtrl, byAnnot.2)
  if ctrlAndPfx.1 then
    let rawUrl := jExtractApiUrl n frames
    match rawUrl, ctrlAndPfx.2 with
    | some url, some pfx =>
        if url ≠ "" ∧ pfx ≠ "" then some (combineApiUrl pfx url) else rawUrl
    | _, _ => rawUrl
  else none

/-- The node constructed by `_extract_nodes` at one CST node ([] when the
node is not a declaration). -/
def jNodeAt (ctx : JCtx) (root : TSNode) (pair : TSNode × List (TSNode × Nat)) :
    List Node :=
  let n := pair.1
  let frames := pair.2
  let ancs := frames.map Prod.fst
  match jNodeTypeAndName n ancs with
  | (some nodeType, some nodeName) =>
      if nodeType ≠ "" ∧ nodeName ≠ "" then
        let apiUrl :=
          if n.ty = "method_declaration" then jApiUrlForMethod root n frames
          else none
        let componentId := jGetComponentId ctx.filePath nodeName
        [{ id := componentId
           name := nodeName
           component_type := nodeType
           file_path := ctx.filePath
           relative_path := ctx.filePath
           source_code := sliceLines ctx.lines n.row (n.erow + 1)
           start_line := n.row + 1
           end_line := n.erow + 1
           has_docstring := false
           docstring := ""
           parameters := none
           node_type := nodeType
           base_classes := none
           class_name := none
           display_name := nodeType ++ " " ++ nodeName
           component_id := componentId
           depends_on := []
           api_url := apiUrl
           http_method := none }]
      else []
  | _ => []

/-- `_extract_nodes` over the whole tree: one preorder pass appending
declaration nodes (the recursion only appends, so it is the preorder
concatenation of the per-node contributions). -/
def jExtractNodes (ctx : JCtx) (root : TSNode) : List Node :=
  (tsPreorder [] root).flatMap (jNodeAt ctx root)

/-- The keys of `top_level_nodes` after `_extract_nodes` (nodes keyed by
declared name, first insertion kept). -/
def jTopLevelKeys (ctx : JCtx) (root : TSNode) : List String :=
  pySetOfList ((jExtractNodes ctx root).map Node.name)

/-- The last `type_identifier`/`generic_type` child and the last
`variable_declarator`'s first identifier, as tracked by the assignment
loops in `_find_variable_type` / `_search_variable_declaration`. -/
def jLastTypeAndIdent (cs : List TSNode) : Option TSNode × Option TSNode :=
  cs.foldl
    (fun acc c =>
      if c.ty = "type_identifier" ∨ c.ty = "generic_type" then (some c, acc.2)
      else if c.ty = "variable_declarator" then
        (acc.1, tsFindChildByType c "identifier")
      else acc)
    (none, none)

mutual
/-- `_search_variable_declaration`: local variable declarations of a
block, recursing into nested blocks. -/
def jSearchVariableDeclaration (variableName : String) :
    List TSNode → Option String
  | [] => none
  | c :: cs =>
      if c.ty = "local_variable_declaration" then
        match jLastTypeAndIdent c.children with
        | (some typeNode, some identNode) =>
            if identNode.text = variableName then
              match jGetTypeName typeNode with
              | some t => some t
              | none => jSearchVariableDeclaration variableName cs
            else jSearchVariableDeclaration variableName cs
        | _ => jSearchVariableDeclaration variableName cs
      else if c.ty = "block" then
        match jSearchVariableDeclarationBlock variableName c with
        | some t => some t
        | none => jSearchVariableDeclaration variableName cs
      else jSearchVariableDeclaration variableName cs

def jSearchVariableDeclarationBlock (variableName : String) :
    TSNode → Option String
  | .mk _ _ _ _ cs => jSearchVariableDeclaration variableName cs
end

/-- The field-declaration pass of `_find_variable_type` over a class
body. -/
def jFieldTypeOfClassBody (variableName : String) : List TSNode → Option String
  | [] => none
  | bodyChild :: rest =>
      if bodyChild.ty = "field_declaration" then
        match jLastTypeAndIdent bodyChild.children with
        | (some typeNode, some identNode) =>
            if identNode.text = variableName then jGetTypeName typeNode
            else jFieldTypeOfClassBody variableName rest
        | _ => jFieldTypeOfClassBody variableName rest
      else jFieldTypeOfClassBody variableName rest

/-- Search every `block` child of the enclosing method. -/
def jBlocksOfMethod (variableName : String) : List TSNode → Option String
  | [] => none
  | c :: cs =>
      if c.ty = "block" then
        match jSearchVariableDeclarationBlock variableName c with
        | some t => some t
        | none => jBlocksOfMethod variableName cs
      else jBlocksOfMethod variableName cs

/-- The class-body pass of `_find_variable_type`. -/
def jClassBodiesOfClass (variableName : String) : List TSNode → Option String
  | [] => none
  | c :: cs =>
      if c.ty = "class_body" then
        match jFieldTypeOfClassBody variableName c.children with
        | some t => some t
        | none => jClassBodiesOfClass variableName cs
      else jClassBodiesOfClass variableName cs

/-- `_find_variable_type`: the receiver's declared type, looked up first
among the local variable declarations of the nearest enclosing method
body, then among the field declarations of the enclosing class. -/
def jFindVariableType (ancs : List TSNode) (variableName : String) :
    Option String :=
  let fromMethod :=
    match ancs.find? (fun a => a.ty = "method_declaration") with
    | some methodNode => jBlocksOfMethod variableName methodNode.children
    | none => none
  match fromMethod with
  | some t => some t
  | none =>
      match ancs.find? (fun a => a.ty = "class_declaration") with
      | some classNode => jClassBodiesOfClass variableName classNode.children
      | none => none

/-- The `super_interfaces` pass of `_extract_relationships` (kind 2). -/
def jInterfaceRels (ctx : JCtx) (implementerName : String) (line : Nat) :
    List TSNode → List CallRelationship
  | [] => []
  | child :: rest =>
      (if child.ty = "type_list" then
        child.children.flatMap (fun typeChild =>
          if typeChild.ty = "type_identifier" ∨ typeChild.ty = "generic_type" then
            match jGetTypeName typeChild with
            | some interfaceName =>
                if interfaceName ≠ "" ∧ ¬ jIsPrimitiveType interfaceName then
                  [{ caller := jGetComponentId ctx.filePath implementerName
                     callee := jGetComponentId ctx.filePath interfaceName
                     call_line := line
                     is_resolved := false }]
                else []
            | none => []
          else [])
      else []) ++ jInterfaceRels ctx implementerName line rest

/-- Inheritance edges (`_extract_relationships`, kind 1). -/
def jInheritanceRelsAt (ctx : JCtx) (n : TSNode) : List CallRelationship :=
  if n.ty = "class_declaration" then
    match jGetIdentifierName n with
    | none => []
    | some className =>
        match (tsFindChildByType n "superclass").bind jGetTypeName with
        | none => []
        | some baseClassName =>
            if className ≠ "" ∧ baseClassName ≠ "" ∧
                ¬ jIsPrimitiveType baseClassName then
              [{ caller := jGetComponentId ctx.filePath className
                 callee := jGetComponentId ctx.filePath baseClassName
                 call_line := n.row + 1
                 is_resolved := false }]
            else []
  else []

/-- Interface-implementation edges (kind 2). -/
def jInterfaceRelsAt (ctx : JCtx) (n : TSNode) : List CallRelationship :=
  if n.ty = "class_declaration" ∨ n.ty = "enum_declaration" ∨
      n.ty = "record_declaration" then
    match tsFindChildByType n "super_interfaces" with
    | none => []
    | some implementsNode =>
        match jGetIdentifierName n with
        | none => []
        | some implementerName =>
            if implementerName ≠ "" then
              jInterfaceRels ctx implementerName (n.row + 1) implementsNode.children
            else []
  else []

/-- Field-type-use edges (kind 3); the callee is the bare type name. -/
def jFieldRelsAt (ctx : JCtx) (topKeys : List String) (ancs : List TSNode)
    (n : TSNode) : List CallRelationship :=
  if n.ty = "field_declaration" then
    match jFindContainingClass ctx.filePath topKeys ancs with
    | none => []
    | some containingClass =>
        match n.children.find?
            (fun c => c.ty = "type_identifier" ∨ c.ty = "generic_type") with
        | none => []
        | some typeNode =>
            match jGetTypeName typeNode with
            | none => []
            | some fieldTypeName =>
                if fieldTypeName ≠ "" ∧ ¬ jIsPrimitiveType fieldTypeName then
                  [{ caller := containingClass
                     callee := fieldTypeName
                     call_line := n.row + 1
                     is_resolved := false }]
                else []
  else []

/-- The `object.method` shape detection of kind 4: the first child must
be a (non-empty) identifier. -/
def jInvObjectName (n : TSNode) : Option String :=
  match n.children.head? with
  | some first =>
      if first.ty = "identifier" ∧ first.text ≠ "" then some first.text
      else none
  | none => none

/-- The method-name part of kind 4 (the third child; only consulted when
an object name was found). -/
def jInvMethodName (n : TSNode) : Option String :=
  match n.children.get? 2 with
  | some methodChild =>
      if methodChild.ty = "identifier" ∧ methodChild.text ≠ "" then
        some methodChild.text
      else none
  | none => none

/-- `caller_id = containing_method or containing_class`. -/
def jInvCallerId (ctx : JCtx) (ancs : List TSNode) (containingClass : String) :
    String :=
  match jFindContainingMethod ctx.filePath ancs with
  | some m => m
  | none => containingClass

/-- Method-invocation edges (kind 4); the callee is the receiver's bare
declared type name. -/
def jInvocationRelsAt (ctx : JCtx) (topKeys : List String) (ancs : List TSNode)
    (n : TSNode) : List CallRelationship :=
  if n.ty = "method_invocation" then
    match jFindContainingClass ctx.filePath topKeys ancs with
    | none => []
    | some containingClass =>
        match jInvObjectName n with
        | none => []
        | some oname =>
            match jInvMethodName n with
            | none => []
            | some _ =>
                match (if oname ∈ topKeys then some oname
                       else jFindVariableType ancs oname) with
                | none => []
                | some target =>
                    if target ≠ "" ∧ ¬ jIsPrimitiveType target then
                      [{ caller := jInvCallerId ctx ancs containingClass
                         callee := target
                         call_line := n.row + 1
                         is_resolved := false }]
                    else []
  else []

/-- Object-creation edges (kind 5); the callee is the bare created type
name. -/
def jCreationRelsAt (ctx : JCtx) (topKeys : List String) (ancs : List TSNode)
    (n : TSNode) : List CallRelationship :=
  if n.ty = "object_creation_expression" then
    match jFindContainingClass ctx.filePath topKeys ancs with
    | none => []
    | some containingClass =>
        match n.children.find?
            (fun c => c.ty = "type_identifier" ∨ c.ty = "generic_type") with
        | none => []
        | some typeNode =>
            match jGetTypeName typeNode with
            | none => []
            | some createdType =>
                if createdType ≠ "" ∧ ¬ jIsPrimitiveType createdType then
                  [{ caller := containingClass
                     callee := createdType
                     call_line := n.row + 1
                     is_resolved := false }]
                else []
  else []

/-- The relationships `_extract_relationships` emits at one CST node, in
source order: inheritance, interface implementation, field-type use,
method invocation, object creation. -/
def jRelsAt (ctx : JCtx) (topKeys : List String)
    (pair : TSNode × List (TSNode × Nat)) : List CallRelationship :=
  let n := pair.1
  let ancs := pair.2.map Prod.fst
  jInheritanceRelsAt ctx n ++ jInterfaceRelsAt ctx n ++
    jFieldRelsAt ctx topKeys ancs n ++ jInvocationRelsAt ctx topKeys ancs n ++
    jCreationRelsAt ctx topKeys ancs n

/-- `_extract_relationships` over the whole tree (the recursion only
appends, so it is the preorder concatenation of per-node contributions;
no deduplication is applied). -/
def jExtractRelationships (ctx : JCtx) (topKeys : List String) (root : TSNode) :
    List CallRelationship :=
  (tsPreorder [] root).flatMap (jRelsAt ctx topKeys)

/-- `analyze_java_file` on an already-parsed CST. -/
def analyzeJavaFile (ctx : JCtx) (root : TSNode) :
    List Node × List CallRelationship :=
  let nodes := jExtractNodes ctx root
  let keys := jTopLevelKeys ctx root
  (nodes, jExtractRelationships ctx keys root)

/-! ### C fixtures: CSTs the external engine produces for the §8 sources -/

/-- Helper for anonymous token nodes. -/
def tok (t : String) (r : Nat) : TSNode := .mk t t r r []

/-- CST of `void bar(){}` (starting at row 0 of a one-line file). -/
def cFnBar : TSNode :=
  .mk "function_definition" "void bar()\x7b\x7d" 0 0
    [ .mk "primitive_type" "void" 0 0 []
    , .mk "function_declarator" "bar()" 0 0
        [ .mk "identifier" "bar" 0 0 []
        , .mk "parameter_list" "()" 0 0 [tok "(" 0, tok ")" 0] ]
    , .mk "compound_statement" "\x7b\x7d" 0 0 [tok "\x7b" 0, tok "\x7d" 0] ]

/-- CST of `void foo(){ bar(); }`. -/
def cFnFoo : TSNode :=
  .mk "function_definition" "void foo()\x7b bar(); \x7d" 0 0
    [ .mk "primitive_type" "void" 0 0 []
    , .mk "function_declarator" "foo()" 0 0
        [ .mk "identifier" "foo" 0 0 []
        , .mk "parameter_list" "()" 0 0 [tok "(" 0, tok ")" 0] ]
    , .mk "compound_statement" "\x7b bar(); \x7d" 0 0
        [ tok "\x7b" 0
        , .mk "expression_statement" "bar();" 0 0
            [ .mk "call_expression" "bar()" 0 0
                [ .mk "identifier" "bar" 0 0 []
                , .mk "argument_list" "()" 0 0 [tok "(" 0, tok ")" 0] ]
            , tok ";" 0 ]
        , tok "\x7d" 0 ] ]

/-- CST of `int main(){ foo(); }`. -/
def cFnMain : TSNode :=
  .mk "function_definition" "int main()\x7b foo(); \x7d" 0 0
    [ .mk "primitive_type" "int" 0 0 []
    , .mk "function_declarator" "main()" 0 0
        [ .mk "identifier" "main" 0 0 []
        , .mk "parameter_list" "()" 0 0 [tok "(" 0, tok ")" 0] ]
    , .mk "compound_statement" "\x7b foo(); \x7d" 0 0
        [ tok "\x7b" 0
        , .mk "expression_statement" "foo();" 0 0
            [ .mk "call_expression" "foo()" 0 0
                [ .mk "identifier" "foo" 0 0 []
                , .mk "argument_list" "()" 0 0 [tok "(" 0, tok ")" 0] ]
            , tok ";" 0 ]
        , tok "\x7d" 0 ] ]

/-- CST of the one-line file `void bar(){} void foo(){ bar(); }`. -/
def cTwoFuncRoot : TSNode :=
  .mk "translation_unit" "void bar()\x7b\x7d void foo()\x7b bar(); \x7d" 0 0
    [cFnBar, cFnFoo]

/-- The same file with `int main(){ foo(); }` appended. -/
def cWithMainRoot : TSNode :=
  .mk "translation_unit"
    "void bar()\x7b\x7d void foo()\x7b bar(); \x7d int main()\x7b foo(); \x7d" 0 0
    [cFnBar, cFnFoo, cFnMain]

def cTwoFuncCtx : CCtx :=
  { filePath := "test.c"
    lines := ["void bar()\x7b\x7d void foo()\x7b bar(); \x7d"] }

def cWithMainCtx : CCtx :=
  { filePath := "test.c"
    lines := ["void bar()\x7b\x7d void foo()\x7b bar(); \x7d int main()\x7b foo(); \x7d"] }

/-! ### Java fixtures -/

/-- The `simple_test.py` fixture source (leading blank line included):
```
@RestController
@RequestMapping("/chat")
public class RAGService {
    @PostMapping("/completions/stream")
    public ResponseEntity<?> chatCompletionsStream(@RequestBody ChatRequest request) {
        return null;
    }
}
``` -/
def ragLines : List String :=
  [ ""
  , "@RestController"
  , "@RequestMapping(\"/chat\")"
  , "public class RAGService \x7b"
  , "    @PostMapping(\"/completions/stream\")"
  , "    public ResponseEntity<?> chatCompletionsStream(@RequestBody ChatRequest request) \x7b"
  , "        return null;"
  , "    \x7d"
  , "\x7d" ]

def ragCtx : JCtx := { filePath := "RAGService.java", lines := ragLines }

/-- The `@PostMapping("/completions/stream")` annotation node. -/
def ragPostMapping : TSNode :=
  .mk "annotation" "@PostMapping(\"/completions/stream\")" 4 4
    [ tok "@" 4
    , .mk "identifier" "PostMapping" 4 4 []
    , .mk "annotation_argument_list" "(\"/completions/stream\")" 4 4
        [ tok "(" 4
        , .mk "string_literal" "\"/completions/stream\"" 4 4 []
        , tok ")" 4 ] ]

/-- The `chatCompletionsStream` method declaration node. -/
def ragMethod : TSNode :=
  .mk "method_declaration"
    "@PostMapping(\"/completions/stream\")\n    public ResponseEntity<?> chatCompletionsStream(@RequestBody ChatRequest request) \x7b\n        return null;\n    \x7d"
    4 7
    [ .mk "modifiers" "@PostMapping(\"/completions/stream\")\n    public" 4 5
        [ragPostMapping, tok "public" 5]
    , .mk "generic_type" "ResponseEntity<?>" 5 5
        [ .mk "type_identifier" "ResponseEntity" 5 5 []
        , .mk "type_arguments" "<?>" 5 5 [] ]
    , .mk "identifier" "chatCompletionsStream" 5 5 []
    , .mk "formal_parameters" "(@RequestBody ChatRequest request)" 5 5
        [ tok "(" 5
        , .mk "formal_parameter" "@RequestBody ChatRequest request" 5 5
            [ .mk "modifiers" "@RequestBody" 5 5
                [ .mk "marker_annotation" "@RequestBody" 5 5
                    [tok "@" 5, .mk "identifier" "RequestBody" 5 5 []] ]
            , .mk "type_identifier" "ChatRequest" 5 5 []
            , .mk "identifier" "request" 5 5 [] ]
        , tok ")" 5 ]
    , .mk "block" "\x7b\n        return null;\n    \x7d" 5 7
        [ tok "\x7b" 5
        , .mk "return_statement" "return null;" 6 6
            [tok "return" 6, .mk "null_literal" "null" 6 6 [], tok ";" 6]
        , tok "\x7d" 7 ] ]

/-- The `RAGService` class declaration node. -/
def ragClass : TSNode :=
  .mk "class_declaration"
    "@RestController\n@RequestMapping(\"/chat\")\npublic class RAGService \x7b ... \x7d"
    1 8
    [ .mk "modifiers" "@RestController\n@RequestMapping(\"/chat\")\npublic" 1 3
        [ .mk "marker_annotation" "@RestController" 1 1
            [tok "@" 1, .mk "identifier" "RestController" 1 1 []]
        , .mk "annotation" "@RequestMapping(\"/chat\")" 2 2
            [ tok "@" 2
            , .mk "identifier" "RequestMapping" 2 2 []
            , .mk "annotation_argument_list" "(\"/chat\")" 2 2
                [tok "(" 2, .mk "string_literal" "\"/chat\"" 2 2 [], tok ")" 2] ]
        , tok "public" 3 ]
    , tok "class" 3
    , .mk "identifier" "RAGService" 3 3 []
    , .mk "class_body" "\x7b ... \x7d" 3 8
        [tok "\x7b" 3, ragMethod, tok "\x7d" 8] ]

/-- The parsed `program` root. -/
def ragRoot : TSNode :=
  .mk "program" "" 1 8 [ragClass]

/-- A one-class file exercising every Java relationship kind, with two
same-type field declarations sharing one source row:
```
class A extends Base {
    Foo x; Foo y;
    void go() { Bar b; b.run(); new Baz(); }
}
``` (file `m.java`). -/
def jFieldFoo (varName : String) : TSNode :=
  .mk "field_declaration" ("Foo " ++ varName ++ ";") 1 1
    [ .mk "type_identifier" "Foo" 1 1 []
    , .mk "variable_declarator" varName 1 1 [.mk "identifier" varName 1 1 []]
    , tok ";" 1 ]

def jGoMethod : TSNode :=
  .mk "method_declaration" "void go() \x7b Bar b; b.run(); new Baz(); \x7d" 2 2
    [ .mk "void_type" "void" 2 2 []
    , .mk "identifier" "go" 2 2 []
    , .mk "formal_parameters" "()" 2 2 [tok "(" 2, tok ")" 2]
    , .mk "block" "\x7b Bar b; b.run(); new Baz(); \x7d" 2 2
        [ tok "\x7b" 2
        , .mk "local_variable_declaration" "Bar b;" 2 2
            [ .mk "type_identifier" "Bar" 2 2 []
            , .mk "variable_declarator" "b" 2 2 [.mk "identifier" "b" 2 2 []]
            , tok ";" 2 ]
        , .mk "expression_statement" "b.run();" 2 2
            [ .mk "method_invocation" "b.run()" 2 2
                [ .mk "identifier" "b" 2 2 []
                , tok "." 2
                , .mk "identifier" "run" 2 2 []
                , .mk "argument_list" "()" 2 2 [tok "(" 2, tok ")" 2] ]
            , tok ";" 2 ]
        , .mk "expression_statement" "new Baz();" 2 2
            [ .mk "object_creation_expression" "new Baz()" 2 2
                [ tok "new" 2
                , .mk "type_identifier" "Baz" 2 2 []
                , .mk "argument_list" "()" 2 2 [tok "(" 2, tok ")" 2] ]
            , tok ";" 2 ]
        , tok "\x7d" 2 ] ]

def jClassA : TSNode :=
  .mk "class_declaration"
    "class A extends Base \x7b ... \x7d" 0 3
    [ tok "class" 0
    , .mk "identifier" "A" 0 0 []
    , .mk "superclass" "extends Base" 0 0
        [tok "extends" 0, .mk "type_identifier" "Base" 0 0 []]
    , .mk "class_body" "\x7b ... \x7d" 0 3
        [tok "\x7b" 0, jFieldFoo "x", jFieldFoo "y", jGoMethod, tok "\x7d" 3] ]

def jDupRoot : TSNode := .mk "program" "" 0 3 [jClassA]

def jDupCtx : JCtx :=
  { filePath := "m.java"
    lines :=
      [ "class A extends Base \x7b"
      , "    Foo x; Foo y;"
      , "    void go() \x7b Bar b; b.run(); new Baz(); \x7d"
      , "\x7d" ] }

/-! ## C# analyzer, declaration phase (`src/analyzers/csharp.py`) -/

/-- `TreeSitterCSharpAnalyzer._get_module_path` for an analyzer without a
repository root. -/
def csGetModulePath (filePath : String) : String :=
  dotifySeparators (stripFirstExt [".cs"] filePath)

/-- `_get_component_id`: `module.class.name` only for methods with a
class name, `module.name` otherwise. -/
def csGetComponentId (filePath name : String) (className : Option String)
    (isMethod : Bool) : String :=
  match className with
  | some cn =>
      if isMethod ∧ cn ≠ "" then
        csGetModulePath filePath ++ "." ++ cn ++ "." ++ name
      else csGetModulePath filePath ++ "." ++ name
  | none => csGetModulePath filePath ++ "." ++ name

/-- `_get_method_name`: first identifier child. -/
def csGetMethodName (methodNode : TSNode) : Option String :=
  tsFirstChildText methodNode "identifier"

/-- The `base_list` collection shared by class and interface extraction
(`identifier`/`generic_name` children whose text is not punctuation). -/
def csBaseClasses (n : TSNode) : List String :=
  n.children.flatMap (fun child =>
    if child.ty = "base_list" then
      child.children.flatMap (fun baseType =>
        if baseType.ty = "identifier" ∨ baseType.ty = "generic_name" then
          if baseType.text ≠ ":" ∧ baseType.text ≠ "," then [baseType.text]
          else []
        else [])
    else [])

/-- `_extract_class_declaration`. -/
def csExtractClassDeclaration (ctx : CCtx) (n : TSNode) : Option Node :=
  match tsFindChildByType n "identifier" with
  | none => none
  | some nameNode =>
      let name := nameNode.text
      let lineStart := n.row + 1
      let lineEnd := n.erow + 1
      let baseClasses := csBaseClasses n
      let componentId := csGetComponentId ctx.filePath name none false
      some
        { id := componentId
          name := name
          component_type := "class"
          file_path := ctx.filePath
          relative_path := ctx.filePath
          source_code := sliceLines ctx.lines (lineStart - 1) lineEnd
          start_line := lineStart
          end_line := lineEnd
          has_docstring := false
          docstring := ""
          parameters := none
          node_type := "class"
          base_classes := if baseClasses ≠ [] then some baseClasses else none
          class_name := none
          display_name := "class " ++ name
          component_id := componentId }

/-- `_extract_interface_declaration`. -/
def csExtractInterfaceDeclaration (ctx : CCtx) (n : TSNode) : Option Node :=
  match tsFindChildByType n "identifier" with
  | none => none
  | some nameNode =>
      let name := nameNode.text
      let lineStart := n.row + 1
      let lineEnd := n.erow + 1
      let baseClasses := csBaseClasses n
      let componentId := csGetComponentId ctx.filePath name none false
      some
        { id := componentId
          name := name
          component_type := "interface"
          file_path := ctx.filePath
          relative_path := ctx.filePath
          source_code := sliceLines ctx.lines (lineStart - 1) lineEnd
          start_line := lineStart
          end_line := lineEnd
          has_docstring := false
          docstring := ""
          parameters := none
          node_type := "interface"
          base_classes := if baseClasses ≠ [] then some baseClasses else none
          class_name := none
          display_name := "interface " ++ name
          component_id := componentId }

/-- `_create_method_node` (registered under `module.class.method` in
`top_level_nodes`, never appended to `nodes`). -/
def csCreateMethodNode (ctx : CCtx) (n : TSNode) (methodName className : String) :
    Node :=
  let lineStart := n.row + 1
  let lineEnd := n.erow + 1
  let componentId := csGetComponentId ctx.filePath methodName (some className) true
  { id := componentId
    name := methodName
    component_type := "method"
    file_path := ctx.filePath
    relative_path := ctx.filePath
    source_code := sliceLines ctx.lines (lineStart - 1) lineEnd
    start_line := lineStart
    end_line := lineEnd
    has_docstring := false
    docstring := ""
    parameters := none
    node_type := "method"
    base_classes := none
    class_name := some className
    display_name := "method " ++ methodName
    component_id := componentId }

/-- `_extract_methods_from_class`: the `(key, node)` entries written into
`top_level_nodes` (the method looks for a `class_declaration` child
first — never present — then falls back to the `declaration_list`). -/
def csMethodsFromClass (ctx : CCtx) (classNode : TSNode) (className : String) :
    List (String × Node) :=
  let classBody :=
    match tsFindChildByType classNode "class_declaration" with
    | some body => some body
    | none => tsFindChildByType classNode "declaration_list"
  match classBody with
  | none => []
  | some body =>
      body.children.flatMap (fun child =>
        if child.ty = "method_declaration" ∨ child.ty = "constructor_declaration" ∨
            child.ty = "local_function_statement" then
          match csGetMethodName child with
          | some methodName =>
              [(csGetModulePath ctx.filePath ++ "." ++ className ++ "." ++ methodName,
                csCreateMethodNode ctx child methodName className)]
          | none => []
        else [])

/-- `_extract_methods_from_interface`. -/
def csMethodsFromInterface (ctx : CCtx) (interfaceNode : TSNode)
    (interfaceName : String) : List (String × Node) :=
  match tsFindChildByType interfaceNode "declaration_list" with
  | none => []
  | some body =>
      body.children.flatMap (fun child =>
        if child.ty = "method_declaration" then
          match csGetMethodName child with
          | some methodName =>
              [(csGetModulePath ctx.filePath ++ "." ++ interfaceName ++ "." ++ methodName,
                csCreateMethodNode ctx child methodName interfaceName)]
          | none => []
        else [])

/-- `_extract_parameters` (C#): identifiers of `parameter` children of
the first `parameter_list`. -/
def csExtractParameters (n : TSNode) : List String :=
  match tsFindChildByType n "parameter_list" with
  | none => []
  | some paramsNode =>
      paramsNode.children.flatMap (fun child =>
        if child.ty = "parameter" then
          child.children.flatMap (fun paramChild =>
            if paramChild.ty = "identifier" then [paramChild.text]
            else if paramChild.ty = "variable_declarator" then
              match tsFindChildByType paramChild "identifier" with
              | some varId => [varId.text]
              | none => []
            else [])
        else [])

/-- `_extract_method_declaration` (only reached for methods with no
containing class). -/
def csExtractMethodDeclaration (ctx : CCtx) (n : TSNode) : Option Node :=
  match tsFindChildByType n "identifier" with
  | none => none
  | some nameNode =>
      let methodName := nameNode.text
      let lineStart := n.row + 1
      let lineEnd := n.erow + 1
      let nodeType :=
        if n.ty = "constructor_declaration" then "constructor"
        else if n.ty = "local_function_statement" then "function"
        else "method"
      let displayName :=
        if n.ty = "constructor_declaration" then "constructor " ++ methodName
        else if n.ty = "local_function_statement" then "local function " ++ methodName
        else "method " ++ methodName
      let componentId := csGetComponentId ctx.filePath methodName none false
      some
        { id := componentId
          name := methodName
          component_type := nodeType
          file_path := ctx.filePath
          relative_path := ctx.filePath
          source_code := n.text
          start_line := lineStart
          end_line := lineEnd
          has_docstring := false
          docstring := ""
          parameters := some (csExtractParameters n)
          node_type := nodeType
          base_classes := none
          class_name := none
          display_name := displayName
          component_id := componentId }

/-- `_should_include_function` (C#): exclude `Main`/`main`. -/
def csShouldIncludeFunction (f : Node) : Bool :=
  !(["Main", "main"].contains f.name)

/-- `_find_containing_class` (C#): nearest `class_declaration` ancestor's
identifier. -/
def csFindContainingClass (ancs : List TSNode) : Option String :=
  match ancs with
  | [] => none
  | a :: rest =>
      if a.ty = "class_declaration" then
        match tsFirstChildText a "identifier" with
        | some nm => some nm
        | none => csFindContainingClass rest
      else csFindContainingClass rest

/-- The entries `_traverse_for_functions` appends to `self.nodes` at one
CST node. -/
def csNodesAt (ctx : CCtx) (pair : TSNode × List (TSNode × Nat)) : List Node :=
  let n := pair.1
  let ancs := pair.2.map Prod.fst
  if n.ty = "class_declaration" then
    match csExtractClassDeclaration ctx n with
    | some cls => [cls]
    | none => []
  else if n.ty = "interface_declaration" then
    match csExtractInterfaceDeclaration ctx n with
    | some itf => [itf]
    | none => []
  else if n.ty = "method_declaration" ∨ n.ty = "constructor_declaration" ∨
      n.ty = "local_function_statement" then
    match csFindContainingClass ancs with
    | some _ => []
    | none =>
        match csExtractMethodDeclaration ctx n with
        | some m => if csShouldIncludeFunction m then [m] else []
        | none => []
  else []

/-- The keys `_traverse_for_functions` writes into `top_level_nodes` at
one CST node. -/
def csKeysAt (ctx : CCtx) (pair : TSNode × List (TSNode × Nat)) : List String :=
  let n := pair.1
  let ancs := pair.2.map Prod.fst
  if n.ty = "class_declaration" then
    match csExtractClassDeclaration ctx n with
    | some cls => cls.name :: (csMethodsFromClass ctx n cls.name).map Prod.fst
    | none => []
  else if n.ty = "interface_declaration" then
    match csExtractInterfaceDeclaration ctx n with
    | some itf => itf.name :: (csMethodsFromInterface ctx n itf.name).map Prod.fst
    | none => []
  else if n.ty = "method_declaration" ∨ n.ty = "constructor_declaration" ∨
      n.ty = "local_function_statement" then
    match csFindContainingClass ancs with
    | some _ => []
    | none =>
        match csExtractMethodDeclaration ctx n with
        | some m => if csShouldIncludeFunction m then [m.name] else []
        | none => []
  else []

/-- `_extract_functions` (C#): the preorder contributions to
`self.nodes`, sorted stably by start line. -/
def csExtractFunctions (ctx : CCtx) (root : TSNode) : List Node :=
  stableSortBy Node.start_line ((tsPreorder [] root).flatMap (csNodesAt ctx))

/-- The keys of `top_level_nodes` after the C# declaration phase. -/
def csTopLevelKeys (ctx : CCtx) (root : TSNode) : List String :=
  pySetOfList ((tsPreorder [] root).flatMap (csKeysAt ctx))

/-! ### C# fixture: `class Greeter { void Hello() { } }` in `test.cs` -/

def csHelloMethod : TSNode :=
  .mk "method_declaration" "void Hello() \x7b \x7d" 0 0
    [ .mk "predefined_type" "void" 0 0 []
    , .mk "identifier" "Hello" 0 0 []
    , .mk "parameter_list" "()" 0 0 [tok "(" 0, tok ")" 0]
    , .mk "block" "\x7b \x7d" 0 0 [tok "\x7b" 0, tok "\x7d" 0] ]

def csGreeterClass : TSNode :=
  .mk "class_declaration" "class Greeter \x7b void Hello() \x7b \x7d \x7d" 0 0
    [ tok "class" 0
    , .mk "identifier" "Greeter" 0 0 []
    , .mk "declaration_list" "\x7b void Hello() \x7b \x7d \x7d" 0 0
        [tok "\x7b" 0, csHelloMethod, tok "\x7d" 0] ]

def csGreeterRoot : TSNode :=
  .mk "compilation_unit" "class Greeter \x7b void Hello() \x7b \x7d \x7d" 0 0
    [csGreeterClass]

def csGreeterCtx : CCtx :=
  { filePath := "test.cs"
    lines := ["class Greeter \x7b void Hello() \x7b \x7d \x7d"] }

/-! ## Repository structure scanner (`src/repo_analyzer.py`) -/

/-- Collect bracket members until the closing `]`. -/
def goBracket : List Char → Option (List Char × List Char)
  | [] => none
  | c :: rest =>
      if c = ']' then some ([], rest)
      else (goBracket rest).map (fun (set, after) => (c :: set, after))

/-- Parse a glob bracket class: optional leading `!`, a first `]` kept as
a literal member, members until the closing `]`. `none` when unclosed
(the `[` is then matched literally, as `fnmatch` does). -/
def parseBracket (ps : List Char) : Option (Bool × List Char × List Char) :=
  let negAndRest :=
    match ps with
    | c :: rest => if c = '!' then (true, rest) else (false, ps)
    | [] => (false, ps)
  let scan : Option (List Char × List Char) :=
    match negAndRest.2 with
    | c :: rest =>
        if c = ']' then
          (goBracket rest).map (fun (set, after) => (']' :: set, after))
        else goBracket negAndRest.2
    | [] => none
  scan.map (fun (set, after) => (negAndRest.1, set, after))

/-- Membership in a bracket class, honouring `a-z` ranges. -/
def charInSet : List Char → Char → Bool
  | a :: dash :: b :: rest, c =>
      if dash = '-' then (a ≤ c ∧ c ≤ b) || charInSet rest c
      else (c = a) || charInSet (dash :: b :: rest) c
  | a :: rest, c => (c = a) || charInSet rest c
  | [], _ => false

/-- Shell-glob matching (`*`, `?`, bracket classes) against a whole
name, as `fnmatch.fnmatch` does on a case-sensitive filesystem. The
fuel argument bounds `|pattern| + |name|`, which strictly decreases at
every recursive call. -/
def globMatchFuel : Nat → List Char → List Char → Bool
  | 0, _, _ => false
  | _ + 1, [], s => s.isEmpty
  | fuel + 1, p :: ps, s =>
      if p = '*' then
        globMatchFuel fuel ps s ||
          (match s with
           | [] => false
           | _ :: srest => globMatchFuel fuel (p :: ps) srest)
      else if p = '?' then
        match s with
        | [] => false
        | _ :: srest => globMatchFuel fuel ps srest
      else if p = '[' then
        match parseBracket ps with
        | some (neg, set, after) =>
            match s with
            | [] => false
            | c :: srest =>
                (charInSet set c ≠ neg) && globMatchFuel fuel after srest
        | none =>
            match s with
            | [] => false
            | c :: srest => (c = '[') && globMatchFuel fuel ps srest
      else
        match s with
        | [] => false
        | c :: srest => (c = p) && globMatchFuel fuel ps srest

def fnmatchName (name pat : String) : Bool :=
  globMatchFuel (pat.data.length + name.data.length + 1) pat.data name.data

/-- `RepoAnalyzer._matches_pattern`. -/
def matchesPattern (name : String) (patterns : List String) : Bool :=
  patterns.any (fun pat => fnmatchName name pat)

/-- The default exclude globs. -/
def defaultExcludePatterns : List String :=
  ["node_modules", "__pycache__", ".git", ".svn", ".hg",
   "dist", "build", ".vscode", ".idea", "*.log", "*.tmp"]

/-- `path.name`: the final path segment. -/
def pathName (path : List String) : String :=
  match path.getLast? with
  | some nm => nm
  | none => ""

/-- `RepoAnalyzer._should_exclude`: any path segment matching an exclude
glob, or the bare name matching one. -/
def shouldExclude (excl : List String) (path : List String) : Bool :=
  path.any (fun part => matchesPattern part excl) ||
    matchesPattern (pathName path) excl

/-- A directory entry on disk (what `Path.iterdir` yields). -/
inductive FSEntry where
  | dir (name : String) (children : List FSEntry)
  | file (name : String) (size : Nat) (modified : String)

def FSEntry.name : FSEntry → String
  | .dir nm _ => nm
  | .file nm _ _ => nm

/-- A node of the serialized file tree. -/
inductive ScanTree where
  | dir (name : String) (path : List String) (children : List ScanTree)
  | file (name : String) (path : List String) (size : Nat) (ext : String)
      (modified : String)

/-- `Path.suffix.lower()`: the (lowercased) extension of the name,
empty unless an inner dot is followed by at least one character. -/
def lowerSuffix (name : String) : String :=
  let cs := name.data
  let idx :=
    (List.range cs.length).foldl
      (fun acc i => if cs.get? i = some '.' then some i else acc) none
  match idx with
  | some i =>
      if 0 < i ∧ i < cs.length - 1 then ⟨(cs.drop i).map Char.toLower⟩ else ""
  | none => ""

mutual
/-- One iteration of the children loop of `RepoAnalyzer._scan_directory`:
exclusion is checked first for every entry; only files are then
subjected to the include patterns; directories are recursed into
unconditionally. -/
def scanEntry (incl excl : List String) (dirPath : List String) :
    FSEntry → List ScanTree
  | .file nm size modified =>
      if shouldExclude excl (dirPath ++ [nm]) then []
      else if incl ≠ [] ∧ ¬ matchesPattern nm incl then []
      else [ScanTree.file nm (dirPath ++ [nm]) size (lowerSuffix nm) modified]
  | .dir nm sub =>
      if shouldExclude excl (dirPath ++ [nm]) then []
      else
        [ScanTree.dir nm (dirPath ++ [nm])
          (scanChildren incl excl (dirPath ++ [nm]) sub)]

/-- The children loop of `_scan_directory`. -/
def scanChildren (incl excl : List String) (dirPath : List String) :
    List FSEntry → List ScanTree
  | [] => []
  | e :: es =>
      scanEntry incl excl dirPath e ++ scanChildren incl excl dirPath es
end

/-- `_scan_directory` on the repository root (the root itself is never
exclusion-checked). -/
def scanDirectory (incl excl : List String) (rootPath : List String)
    (rootName : String) (children : List FSEntry) : ScanTree :=
  .dir rootName rootPath (scanChildren incl excl rootPath children)

mutual
/-- The file paths present in a scanned tree (`file`-typed leaves). -/
def scanTreeFiles : ScanTree → List (List String)
  | .file _ path _ _ _ => [path]
  | .dir _ _ children => scanTreeFilesList children

def scanTreeFilesList : List ScanTree → List (List String)
  | [] => []
  | t :: ts => scanTreeFiles t ++ scanTreeFilesList ts
end

/-- A fixture tree: `repo/node_modules/pkg/index.js` and `repo/src/app.js`. -/
def repoFixture : List FSEntry :=
  [ .dir "node_modules" [.dir "pkg" [.file "index.js" 10 "t1"]]
  , .dir "src" [.file "app.js" 20 "t2"] ]

/-! ## CLI (`src/cli.py`) -/

/-- A component dictionary as loaded from a results JSON file. -/
structure CompDump where
  name : String
  component_type : String
  relative_path : String
  source_code : String
  depends_on : List String
  api_url : Option String
  http_method : Option String
deriving Repr, DecidableEq

/-- Python rendering of an optional JSON string (a `null` value prints
as `None`). -/
def optStr (o : Option String) : String :=
  match o with
  | some s => s
  | none => "None"

/-- Concatenation of emitted text fragments. -/
def strJoin : List String → String
  | [] => ""
  | s :: ss => s ++ strJoin ss

/-- The `(caller, callee)` pairs `visualize_results` derives: one per
`(component, depends_on entry)`, in iteration order. -/
def vizRelationships (components : List (String × CompDump)) :
    List (String × String) :=
  components.flatMap (fun comp =>
    comp.2.depends_on.map (fun depId => (comp.1, depId)))

/-- The `connected_nodes` set: every caller and callee of some edge. -/
def vizConnectedNodes (rels : List (String × String)) : List String :=
  rels.foldl (fun s rel => pySetAdd (pySetAdd s rel.1) rel.2) []

/-- The component ids a node statement is emitted for. -/
def vizNodeIds (components : List (String × CompDump)) (filterEmptyNodes : Bool) :
    List String :=
  if filterEmptyNodes then
    (dictKeys components).filter
      (fun compId => compId ∈ vizConnectedNodes (vizRelationships components))
  else dictKeys components

/-- One node statement (label: text after the last dot). -/
def vizNodeLine (compId : String) : String :=
  let compName :=
    if strContains compId "." then lastSplitSegment compId '.' else compId
  "  \"" ++ compId ++ "\" [label=\"" ++ compName ++ "\"];\n"

/-- One edge statement. -/
def vizEdgeLine (rel : String × String) : String :=
  "  \"" ++ rel.1 ++ "\" -> \"" ++ rel.2 ++ "\";\n"

/-- `visualize_results`: the generated DOT text. -/
def visualize_results (components : List (String × CompDump))
    (filterEmptyNodes : Bool) : String :=
  "digraph CallGraph \x7b\n" ++ "  rankdir=TB;\n" ++ "  node [shape=box];\n\n" ++
    strJoin ((vizNodeIds components filterEmptyNodes).map vizNodeLine) ++
    strJoin ((vizRelationships components).map vizEdgeLine) ++
    "\x7d\n"

/-- The six header lines `_trace_recursive` prints for a component
found in the map. -/
def traceHeaderLines (componentId : String) (depData : CompDump)
    (currentDepth : Nat) : List String :=
  let indent := pyRepeat "    " currentDepth
  [ indent ++ "      ├─ " ++ componentId
  , indent ++ "      │  ├─ Type: " ++ depData.component_type
  , indent ++ "      │  ├─ File: " ++ depData.relative_path
  , indent ++ "      │  ├─ API URL: " ++ optStr depData.api_url
  , indent ++ "      │  ├─ HTTP Method: " ++ optStr depData.http_method
  , indent ++ "      │  ├─ Source Code:\n" ++ indent ++ "      │    " ++
      pyReplaceChar depData.source_code '\n' ("\n" ++ indent ++ "      │    ") ]

/-- `_trace_recursive`, with the recursion bounded by
`remaining = max_depth - current_depth` (zero exactly when
`current_depth >= max_depth`); the output is the list of printed
strings. -/
def traceRecursiveGo (components : List (String × CompDump))
    (componentId : String) (visited : List String) (currentDepth : Nat) :
    Nat → List String
  | 0 => [pyRepeat "    " currentDepth ++ "    (Max depth reached)"]
  | remaining + 1 =>
      let indent := pyRepeat "    " currentDepth
      if componentId ∈ visited then
        [indent ++ "    (Circular reference detected, stopping)"]
      else
        let newVisited := pySetAdd visited componentId
        match dictLookup components componentId with
        | some depData =>
            let header := traceHeaderLines componentId depData currentDepth
            let furtherDeps := depData.depends_on
            if furtherDeps ≠ [] then
              let depsToShow := min 5 furtherDeps.length
              header ++
                [indent ++ "      │  └─ Depends on (" ++
                  toString furtherDeps.length ++ " components):"] ++
                (furtherDeps.take depsToShow).flatMap (fun nextDepId =>
                  (indent ++ "      │    ├─ " ++ nextDepId) ::
                    traceRecursiveGo components nextDepId newVisited
                      (currentDepth + 1) remaining) ++
                (if furtherDeps.length > depsToShow then
                  [indent ++ "      │    └─ ... and " ++
                    toString (furtherDeps.length - depsToShow) ++ " more"]
                 else [])
            else header ++ [indent ++ "      │  └─ No further dependencies"]
        | none =>
            [indent ++ "      ├─ " ++ componentId ++ " (not found in components)"]

/-- `_trace_recursive(component_id, components, visited, current_depth,
max_depth)`. -/
def traceRecursive (components : List (String × CompDump))
    (componentId : String) (visited : List String)
    (currentDepth maxDepth : Nat) : List String :=
  traceRecursiveGo components componentId visited currentDepth
    (maxDepth - currentDepth)

/-- The per-component block of `trace_api_calls`. -/
def traceApiBlock (components : List (String × CompDump))
    (recursive : Bool) (maxDepth : Nat) (compId : String) : List String :=
  match dictLookup components compId with
  | none => []
  | some compData =>
      [ "\nComponent: " ++ compId
      , "  Name: " ++ compData.name
      , "  Type: " ++ compData.component_type
      , "  File: " ++ compData.relative_path
      , "  API URL: " ++ optStr compData.api_url
      , "  HTTP Method: " ++ optStr compData.http_method
      , "  Source Code:\n" ++ compData.source_code ] ++
      (if compData.depends_on ≠ [] then
        ("  Depends on (" ++ toString compData.depends_on.length ++
          " components):") ::
          compData.depends_on.flatMap (fun depId =>
            ("    - " ++ depId) ::
              (if recursive then
                traceRecursive components depId [compId] 1 maxDepth
               else []))
       else ["  No dependencies found"])

/-- `trace_api_calls`: the printed strings. -/
def trace_api_calls (apiUrl : String) (components : List (String × CompDump))
    (recursive : Bool) (maxDepth : Nat) : List String :=
  let matching :=
    (components.filter (fun comp => comp.2.api_url = some apiUrl)).map Prod.fst
  if matching = [] then
    ["No components found with API URL: " ++ apiUrl]
  else
    ("Found " ++ toString matching.length ++ " component(s) with API URL: " ++
      apiUrl) ::
      matching.flatMap (traceApiBlock components recursive maxDepth)

/-- Chain fixture for tracing: `q1 → q2 → q3 → q4`, `q1` carrying the
API URL `/a`. -/
def chainComp (nm : String) (deps : List String) (url : Option String) :
    CompDump :=
  { name := nm
    component_type := "method"
    relative_path := nm ++ ".java"
    source_code := "src " ++ nm
    depends_on := deps
    api_url := url
    http_method := none }

def chainComponents : List (String × CompDump) :=
  [ ("q1", chainComp "q1" ["q2"] (some "/a"))
  , ("q2", chainComp "q2" ["q3"] none)
  , ("q3", chainComp "q3" ["q4"] none)
  , ("q4", chainComp "q4" [] none) ]

/-- Dangling-edge fixture for `visualize_results`: one component whose
`depends_on` names an id that is not a components key. -/
def vizDanglingComponents : List (String × CompDump) :=
  [("a.f", chainComp "f" ["x.g"] none)]

/-! ### Lemmas about the builder and the dedup helper -/

theorem dictLookup_dictSet_self {α : Type} (m : List (String × α)) (k : String)
    (v : α) : dictLookup (dictSet m k v) k = some v := by
  induction m with
  | nil => simp [dictSet, dictLookup]
  | cons hd tl ih =>
      obtain ⟨k', v'⟩ := hd
      by_cases hk : k' = k
      · simp [dictSet, dictLookup, hk]
      · simp [dictSet, dictLookup, hk, ih]

theorem dictLookup_dictSet_ne {α : Type} (m : List (String × α)) (k k' : String)
    (v : α) (h : k' ≠ k) :
    dictLookup (dictSet m k v) k' = dictLookup m k' := by
  induction m with
  | nil => simp [dictSet, dictLookup, Ne.symm h]
  | cons hd tl ih =>
      obtain ⟨k₀, v₀⟩ := hd
      by_cases hk : k₀ = k
      · subst hk
        simp [dictSet, dictLookup, Ne.symm h]
      · simp [dictSet, dictLookup, hk, ih]

theorem dictLookup_dictUpdate_self {α : Type} (m : List (String × α))
    (k : String) (f : α → α) :
    dictLookup (dictUpdate m k f) k = (dictLookup m k).map f := by
  induction m with
  | nil => simp [dictUpdate, dictLookup]
  | cons hd tl ih =>
      obtain ⟨k', v⟩ := hd
      by_cases hk : k' = k
      · simp [dictUpdate, dictLookup, hk]
      · simp [dictUpdate, dictLookup, hk, ih]

theorem dictLookup_dictUpdate_ne {α : Type} (m : List (String × α))
    (k k' : String) (f : α → α) (h : k' ≠ k) :
    dictLookup (dictUpdate m k f) k' = dictLookup m k' := by
  induction m with
  | nil => simp [dictUpdate, dictLookup]
  | cons hd tl ih =>
      obtain ⟨k₀, v₀⟩ := hd
      by_cases hk : k₀ = k
      · subst hk
        simp [dictUpdate, dictLookup, Ne.symm h]
      · simp [dictUpdate, dictLookup, hk, ih]

theorem dictKeys_dictUpdate {α : Type} (m : List (String × α)) (k : String)
    (f : α → α) : dictKeys (dictUpdate m k f) = dictKeys m := by
  induction m with
  | nil => simp [dictUpdate]
  | cons hd tl ih =>
      obtain ⟨k', v⟩ := hd
      by_cases hk : k' = k
      · simp [dictUpdate, dictKeys, hk]
      · simp only [dictUpdate, if_neg hk, dictKeys, List.map_cons] at ih ⊢
        rw [ih]

theorem pySetAdd_mem (s : List String) (x y : String) :
    y ∈ pySetAdd s x ↔ y ∈ s ∨ y = x := by
  unfold pySetAdd
  by_cases h : x ∈ s
  · rw [if_pos h]
    constructor
    · exact Or.inl
    · rintro (hy | rfl)
      · exact hy
      · exact h
  · rw [if_neg h]
    simp

theorem pySetAdd_nodup (s : List String) (x : String) (h : s.Nodup) :
    (pySetAdd s x).Nodup := by
  unfold pySetAdd
  by_cases hc : x ∈ s
  · rwa [if_pos hc]
  · rw [if_neg hc]
    refine List.Nodup.append h (List.nodup_singleton x) ?_
    intro a ha hb
    simp only [List.mem_singleton] at hb
    subst hb
    exact hc ha

theorem pySetOfList_nodup (xs : List String) : (pySetOfList xs).Nodup := by
  unfold pySetOfList
  suffices h : ∀ acc : List String, acc.Nodup → (xs.foldl pySetAdd acc).Nodup by
    exact h [] List.nodup_nil
  induction xs with
  | nil => intro acc hacc; simpa
  | cons hd tl ih =>
      intro acc hacc
      exact ih (pySetAdd acc hd) (pySetAdd_nodup acc hd hacc)

theorem pySetOfList_mem (xs : List String) (y : String) :
    y ∈ pySetOfList xs ↔ y ∈ xs := by
  unfold pySetOfList
  suffices h : ∀ acc : List String,
      y ∈ xs.foldl pySetAdd acc ↔ y ∈ acc ∨ y ∈ xs by
    simpa using h []
  induction xs with
  | nil => intro acc; simp
  | cons hd tl ih =>
      intro acc
      rw [List.foldl_cons, ih (pySetAdd acc hd), pySetAdd_mem]
      simp only [List.mem_cons]
      tauto

/-- Deduplication of an already duplicate-free list is the identity
(first occurrences are kept in order). -/
theorem pySetOfList_of_nodup (xs : List String) (h : xs.Nodup) :
    pySetOfList xs = xs := by
  unfold pySetOfList
  suffices hgen : ∀ acc : List String, acc.Nodup →
      (∀ a ∈ acc, a ∉ xs) → xs.foldl pySetAdd acc = acc ++ xs by
    simpa using hgen [] List.nodup_nil (by simp)
  induction xs with
  | nil => intro acc _ _; simp
  | cons hd tl ih =>
      intro acc hacc hdisj
      rw [List.foldl_cons]
      have hhd : hd ∉ acc := fun hc => hdisj hd hc (by simp)
      have hstep : pySetAdd acc hd = acc ++ [hd] := by
        unfold pySetAdd
        rw [if_neg hhd]
      rw [hstep]
      have htl : tl.Nodup := (List.nodup_cons.mp h).2
      have hnotin : hd ∉ tl := (List.nodup_cons.mp h).1
      rw [ih htl (acc ++ [hd])
        (by
          refine List.Nodup.append hacc (List.nodup_singleton hd) ?_
          intro a ha hb
          simp only [List.mem_singleton] at hb
          subst hb
          exact hdisj a ha (by simp))
        (by
          intro a ha
          rcases List.mem_append.mp ha with h1 | h2
          · exact fun hin => hdisj a h1 (by simp [hin])
          · simp only [List.mem_singleton] at h2
            subst h2
            exact hnotin)]
      simp

theorem dictContains_iff {α : Type} (m : List (String × α)) (k : String) :
    dictContains m k = true ↔ k ∈ dictKeys m := by
  induction m with
  | nil => simp [dictContains, dictLookup, dictKeys]
  | cons hd tl ih =>
      obtain ⟨k', v⟩ := hd
      by_cases hk : k' = k
      · simp [dictContains, dictLookup, dictKeys, hk]
      · simp only [dictContains, dictLookup, if_neg hk, dictKeys, List.map_cons,
          List.mem_cons] at ih ⊢
        rw [ih]
        constructor
        · exact Or.inr
        · rintro (h | h)
          · exact absurd h.symm hk
          · exact h

/-- One `populateDependsOn` step preserves the key set. -/
theorem populate_step_keys (comps : List (String × NodeC)) (rel : RelData) :
    dictKeys
      (if dictContains comps rel.caller = true ∧ rel.callee ≠ "" then
        dictUpdate comps rel.caller
          (fun nd => { nd with depends_on := pySetAdd nd.depends_on rel.callee })
      else comps) = dictKeys comps := by
  by_cases h : dictContains comps rel.caller = true ∧ rel.callee ≠ ""
  · rw [if_pos h, dictKeys_dictUpdate]
  · rw [if_neg h]

theorem populateDependsOn_keys (rels : List RelData)
    (comps : List (String × NodeC)) :
    dictKeys (populateDependsOn comps rels) = dictKeys comps := by
  induction rels generalizing comps with
  | nil => rfl
  | cons hd tl ih =>
      unfold populateDependsOn
      rw [List.foldl_cons]
      have hstep := populate_step_keys comps hd
      calc dictKeys (List.foldl _ _ tl)
          = dictKeys (populateDependsOn _ tl) := rfl
        _ = _ := by rw [ih, hstep]

/-- Membership in a recorded `depends_on` survives further populate
steps. -/
theorem populateDependsOn_mono (rels : List RelData)
    (comps : List (String × NodeC)) (c x : String) (nd : NodeC)
    (h : dictLookup comps c = some nd) (hx : x ∈ nd.depends_on) :
    ∃ nd', dictLookup (populateDependsOn comps rels) c = some nd' ∧
      x ∈ nd'.depends_on := by
  induction rels generalizing comps nd with
  | nil => exact ⟨nd, h, hx⟩
  | cons hd tl ih =>
      unfold populateDependsOn
      rw [List.foldl_cons]
      by_cases hcond : dictContains comps hd.caller = true ∧ hd.callee ≠ ""
      · rw [if_pos hcond]
        by_cases hc : c = hd.caller
        · subst hc
          refine ih _ { nd with depends_on := pySetAdd nd.depends_on hd.callee } ?_ ?_
          · rw [dictLookup_dictUpdate_self, h]
            rfl
          · exact (pySetAdd_mem nd.depends_on hd.callee x).mpr (Or.inl hx)
        · exact ih _ nd (by rw [dictLookup_dictUpdate_ne _ _ _ _ hc, h]) hx
      · rw [if_neg hcond]
        exact ih _ nd h hx

/-- Replaying a relationship with a known caller and a non-empty callee
records the callee in the caller's `depends_on`. -/
theorem populateDependsOn_adds (rels : List RelData)
    (comps : List (String × NodeC)) (r : RelData) (hr : r ∈ rels)
    (hcaller : dictContains comps r.caller = true) (hcallee : r.callee ≠ "") :
    ∃ nd, dictLookup (populateDependsOn comps rels) r.caller = some nd ∧
      r.callee ∈ nd.depends_on := by
  induction rels generalizing comps with
  | nil => cases hr
  | cons hd tl ih =>
      unfold populateDependsOn
      rw [List.foldl_cons]
      rcases List.mem_cons.mp hr with heq | hmem
      · subst heq
        rw [if_pos ⟨hcaller, hcallee⟩]
        obtain ⟨nd, hnd⟩ := Option.isSome_iff_exists.mp hcaller
        refine populateDependsOn_mono tl _ _ _
          { nd with depends_on := pySetAdd nd.depends_on r.callee } ?_ ?_
        · rw [dictLookup_dictUpdate_self, hnd]
          rfl
        · exact (pySetAdd_mem nd.depends_on r.callee r.callee).mpr (Or.inr rfl)
      · have hkeys : ∀ comps' : List (String × NodeC),
            dictKeys comps' = dictKeys comps →
            dictContains comps' r.caller = true := by
          intro comps' hkeq
          rw [dictContains_iff, hkeq, ← dictContains_iff]
          exact hcaller
        by_cases hcond : dictContains comps hd.caller = true ∧ hd.callee ≠ ""
        · rw [if_pos hcond]
          exact ih _ hmem (hkeys _ (dictKeys_dictUpdate _ _ _))
        · rw [if_neg hcond]
          exact ih _ hmem hcaller

/-- Characterization of `_get_leaf_nodes`: a candidate survives exactly
when no relationship has it as caller with a known callee. -/
theorem get_leaf_nodes_spec (comps : List (String × NodeC))
    (rels : List RelData) (pot : List String) (c : String) :
    c ∈ rels.foldl
        (fun pot rel =>
          if rel.caller ∈ pot ∧ dictContains comps rel.callee = true then
            pot.filter (fun x => x ≠ rel.caller)
          else pot) pot ↔
      c ∈ pot ∧ ∀ r ∈ rels, ¬(r.caller = c ∧ dictContains comps r.callee = true) := by
  induction rels generalizing pot with
  | nil => simp
  | cons hd tl ih =>
      rw [List.foldl_cons]
      by_cases hcond : hd.caller ∈ pot ∧ dictContains comps hd.callee = true
      · rw [if_pos hcond, ih]
        constructor
        · rintro ⟨hmem, hrest⟩
          have hcne : c ≠ hd.caller := by
            rcases List.mem_filter.mp hmem with ⟨_, hne⟩
            simpa using hne
          refine ⟨(List.mem_filter.mp hmem).1, ?_⟩
          intro r hr
          rcases List.mem_cons.mp hr with heq | hmem'
          · subst heq
            rintro ⟨hcall, _⟩
            exact hcne hcall.symm
          · exact hrest r hmem'
        · rintro ⟨hmem, hall⟩
          have hne : c ≠ hd.caller := by
            intro heq
            exact hall hd (by simp) ⟨heq.symm, hcond.2⟩
          refine ⟨List.mem_filter.mpr ⟨hmem, by simpa using hne⟩, ?_⟩
          intro r hr
          exact hall r (List.mem_cons_of_mem _ hr)
      · rw [if_neg hcond, ih]
        constructor
        · rintro ⟨hmem, hrest⟩
          refine ⟨hmem, ?_⟩
          intro r hr
          rcases List.mem_cons.mp hr with heq | hmem'
          · subst heq
            rintro ⟨hcall, hknown⟩
            exact hcond ⟨hcall ▸ hmem, hknown⟩
          · exact hrest r hmem'
        · rintro ⟨hmem, hall⟩
          exact ⟨hmem, fun r hr => hall r (List.mem_cons_of_mem _ hr)⟩

/-- The dedup invariant of `_add_relationship`: keys of emitted
relationships are recorded in `seen`, and emitted keys are distinct. -/
theorem addRelationships_nodup (cands : List CallRelationship) (st : RelState)
    (hsub : ∀ k ∈ st.rels.map relKey, k ∈ st.seen)
    (hnd : (st.rels.map relKey).Nodup) :
    ((addRelationships st cands).rels.map relKey).Nodup := by
  induction cands generalizing st with
  | nil => exact hnd
  | cons hd tl ih =>
      unfold addRelationships
      rw [List.foldl_cons]
      refine ih (addRelationship st hd) ?_ ?_
      · intro k hk
        unfold addRelationship at hk ⊢
        by_cases hseen : relKey hd ∈ st.seen
        · rw [if_pos hseen] at hk ⊢
          exact hsub k hk
        · rw [if_neg hseen] at hk ⊢
          simp only [List.map_append, List.map_cons, List.map_nil,
            List.mem_append, List.mem_cons] at hk
          rcases hk with hk | hk
          · exact List.mem_append_left _ (hsub k hk)
          · rcases hk with hk | hk
            · subst hk
              exact List.mem_append_right _ (by simp)
            · cases hk
      · unfold addRelationship
        by_cases hseen : relKey hd ∈ st.seen
        · rw [if_pos hseen]
          exact hnd
        · rw [if_neg hseen]
          simp only [List.map_append, List.map_cons, List.map_nil]
          refine List.Nodup.append hnd (List.nodup_singleton _) ?_
          intro a ha hb
          simp only [List.mem_singleton] at hb
          subst hb
          exact hseen (hsub _ ha)

/-! ### Lemmas about the Java relationship callers -/

theorem strStartsWith_append (a b : String) : strStartsWith (a ++ b) a = true := by
  unfold strStartsWith
  rw [String.data_append]
  simp [List.isPrefixOf_iff_prefix]

theorem jGetComponentId_startsWith (filePath nm : String) :
    strStartsWith (jGetComponentId filePath nm)
      (jGetModulePath filePath ++ ".") = true := by
  unfold jGetComponentId
  exact strStartsWith_append _ _

theorem jFindContainingClass_form (filePath : String) (topKeys : List String)
    (ancs : List TSNode) (c : String)
    (h : jFindContainingClass filePath topKeys ancs = some c) :
    ∃ nm, c = jGetComponentId filePath nm := by
  induction ancs with
  | nil => simp [jFindContainingClass] at h
  | cons a rest ih =>
      unfold jFindContainingClass at h
      split at h
      · split at h
        · split at h
          · exact ⟨_, (Option.some.inj h).symm⟩
          · exact ih h
        · exact ih h
      · exact ih h

theorem jFindContainingMethod_form (filePath : String) (ancs : List TSNode)
    (c : String) (h : jFindContainingMethod filePath ancs = some c) :
    ∃ nm, c = jGetComponentId filePath nm := by
  induction ancs with
  | nil => simp [jFindContainingMethod] at h
  | cons a rest ih =>
      unfold jFindContainingMethod at h
      split at h
      · split at h
        · split at h
          · exact ⟨_, (Option.some.inj h).symm⟩
          · exact ih h
        · exact ih h
      · exact ih h

theorem jInterfaceRels_caller (ctx : JCtx) (nm : String) (line : Nat)
    (cs : List TSNode) (r : CallRelationship)
    (h : r ∈ jInterfaceRels ctx nm line cs) :
    r.caller = jGetComponentId ctx.filePath nm := by
  induction cs with
  | nil => cases h
  | cons hd tl ih =>
      unfold jInterfaceRels at h
      rcases List.mem_append.mp h with h1 | h2
      · split at h1
        · rcases List.mem_flatMap.mp h1 with ⟨tc, _, hin⟩
          split at hin
          · split at hin
            · split at hin
              · simp only [List.mem_singleton] at hin
                subst hin
                rfl
              · cases hin
            · cases hin
          · cases hin
        · cases h1
      · exact ih h2

theorem jInheritanceRelsAt_caller (ctx : JCtx) (n : TSNode)
    (r : CallRelationship) (h : r ∈ jInheritanceRelsAt ctx n) :
    ∃ nm, r.caller = jGetComponentId ctx.filePath nm := by
  unfold jInheritanceRelsAt at h
  split at h
  · split at h
    · cases h
    · split at h
      · cases h
      · split at h
        · simp only [List.mem_singleton] at h
          subst h
          exact ⟨_, rfl⟩
        · cases h
  · cases h

theorem jInterfaceRelsAt_caller (ctx : JCtx) (n : TSNode)
    (r : CallRelationship) (h : r ∈ jInterfaceRelsAt ctx n) :
    ∃ nm, r.caller = jGetComponentId ctx.filePath nm := by
  unfold jInterfaceRelsAt at h
  split at h
  · split at h
    · cases h
    · split at h
      · cases h
      · split at h
        · exact ⟨_, jInterfaceRels_caller _ _ _ _ _ h⟩
        · cases h
  · cases h

theorem jFieldRelsAt_caller (ctx : JCtx) (topKeys : List String)
    (ancs : List TSNode) (n : TSNode) (r : CallRelationship)
    (h : r ∈ jFieldRelsAt ctx topKeys ancs n) :
    ∃ nm, r.caller = jGetComponentId ctx.filePath nm := by
  unfold jFieldRelsAt at h
  split at h
  · split at h
    · cases h
    · rename_i containingClass hccl
      split at h
      · cases h
      · split at h
        · cases h
        · split at h
          · simp only [List.mem_singleton] at h
            subst h
            exact jFindContainingClass_form _ _ _ _ hccl
          · cases h
  · cases h

theorem jInvocationRelsAt_caller (ctx : JCtx) (topKeys : List String)
    (ancs : List TSNode) (n : TSNode) (r : CallRelationship)
    (h : r ∈ jInvocationRelsAt ctx topKeys ancs n) :
    ∃ nm, r.caller = jGetComponentId ctx.filePath nm := by
  unfold jInvocationRelsAt at h
  split at h
  · split at h
    · cases h
    · rename_i containingClass hccl
      split at h
      · cases h
      · split at h
        · cases h
        · split at h
          · cases h
          · split at h
            · simp only [List.mem_singleton] at h
              subst h
              simp only
              unfold jInvCallerId
              split
              · rename_i m hm
                exact jFindContainingMethod_form _ _ _ hm
              · exact jFindContainingClass_form _ _ _ _ hccl
            · cases h
  · cases h

theorem jCreationRelsAt_caller (ctx : JCtx) (topKeys : List String)
    (ancs : List TSNode) (n : TSNode) (r : CallRelationship)
    (h : r ∈ jCreationRelsAt ctx topKeys ancs n) :
    ∃ nm, r.caller = jGetComponentId ctx.filePath nm := by
  unfold jCreationRelsAt at h
  split at h
  · split at h
    · cases h
    · rename_i containingClass hccl
      split at h
      · cases h
      · split at h
        · cases h
        · split at h
          · simp only [List.mem_singleton] at h
            subst h
            exact jFindContainingClass_form _ _ _ _ hccl
          · cases h
  · cases h

theorem jRelsAt_caller (ctx : JCtx) (topKeys : List String)
    (pair : TSNode × List (TSNode × Nat)) (r : CallRelationship)
    (h : r ∈ jRelsAt ctx topKeys pair) :
    ∃ nm, r.caller = jGetComponentId ctx.filePath nm := by
  unfold jRelsAt at h
  rcases List.mem_append.mp h with h4 | h5
  rcases List.mem_append.mp h4 with h3 | hinv
  rcases List.mem_append.mp h3 with h2 | hfld
  rcases List.mem_append.mp h2 with h1 | hitf
  · exact jInheritanceRelsAt_caller _ _ _ h1
  · exact jInterfaceRelsAt_caller _ _ _ hitf
  · exact jFieldRelsAt_caller _ _ _ _ _ hfld
  · exact jInvocationRelsAt_caller _ _ _ _ _ hinv
  · exact jCreationRelsAt_caller _ _ _ _ _ h5

/-! ## Claim theorems -/

set_option maxHeartbeats 1000000

/-- C9: serializing a `Node`'s `depends_on` set to an ordered sequence
via `model_dump` and reconstructing it back into a set — as
`build_dependency_graph` does when reloading function dictionaries —
yields exactly the original set of ids, with no id lost and no id
duplicated, for any number of dependencies including ids that are not
component-map keys. -/
theorem C9_depends_on_round_trip :
    (∀ n : Node, n.depends_on.Nodup →
      pySetOfList (modelDump n).depends_on = n.depends_on ∧
      (pySetOfList (modelDump n).depends_on).Nodup ∧
      ∀ x, x ∈ pySetOfList (modelDump n).depends_on ↔ x ∈ n.depends_on) ∧
    (∀ f : FuncData, f.depends_on.Nodup →
      dictLookup (buildComponentsInit [f]) f.id =
        some { id := f.id, depends_on := f.depends_on }) := by
  constructor
  · intro n hnd
    exact ⟨pySetOfList_of_nodup _ hnd, pySetOfList_nodup _,
      fun x => pySetOfList_mem _ _⟩
  · intro f hnd
    show dictLookup (List.foldl _ [] [f]) f.id = _
    rw [List.foldl_cons, List.foldl_nil]
    show dictLookup (dictSet [] f.id _) f.id = _
    rw [dictLookup_dictSet_self, pySetOfList_of_nodup _ hnd]

/-- Witness for C9 at a three-element `depends_on` set containing ids
that are not component-map keys. -/
theorem C9_depends_on_round_trip_witness :
    pySetOfList
      (modelDump { depends_on := ["a.b", "x.y", "zz"] : Node }).depends_on =
      ["a.b", "x.y", "zz"] ∧
    dictLookup (buildComponentsInit [{ id := "m.f", depends_on := ["q", "r"] }])
      "m.f" = some { id := "m.f", depends_on := ["q", "r"] } :=
  ⟨(C9_depends_on_round_trip.1 _ (by decide)).1,
    C9_depends_on_round_trip.2 { id := "m.f", depends_on := ["q", "r"] } (by decide)⟩

/-- C2 counterexample: a relationship whose caller is a component-map
key but whose callee is the empty string is skipped by
`build_dependency_graph` — the callee is not added to `depends_on`,
contradicting the claim's unconditional "the callee id is added". -/
theorem C2_counterexample :
    dictContains
      (build_dependency_graph [{ id := "A", depends_on := [] }]
        [{ caller := "A", callee := "" }]) "A" = true ∧
    dictLookup
      (build_dependency_graph [{ id := "A", depends_on := [] }]
        [{ caller := "A", callee := "" }]) "A" =
      some { id := "A", depends_on := [] } := by
  constructor
  · decide
  · decide

/-- C2 (amended): for every relationship whose caller id is a key of the
component map and whose callee id is non-empty, the callee id is added
to that component's `depends_on` even when the callee id is not itself a
key; a component leaves the leaf-candidate set exactly when one of its
relationships targets a callee that is a key of the component map; hence
a component whose outgoing relationships all target non-key ids is still
returned as a leaf node. -/
theorem C2_dependency_graph :
    (∀ (funcs : List FuncData) (rels : List RelData) (r : RelData), r ∈ rels →
      dictContains (buildComponentsInit funcs) r.caller = true →
      r.callee ≠ "" →
      ∃ nd, dictLookup (build_dependency_graph funcs rels) r.caller = some nd ∧
        r.callee ∈ nd.depends_on) ∧
    (∀ (funcs : List FuncData) (rels : List RelData) (c : String),
      c ∈ get_leaf_nodes (build_dependency_graph funcs rels) rels ↔
        c ∈ dictKeys (build_dependency_graph funcs rels) ∧
        ∀ r ∈ rels, ¬(r.caller = c ∧
          dictContains (build_dependency_graph funcs rels) r.callee = true)) ∧
    (∀ (funcs : List FuncData) (rels : List RelData) (c : String),
      c ∈ dictKeys (buildComponentsInit funcs) →
      (∀ r ∈ rels, r.caller = c →
        dictContains (buildComponentsInit funcs) r.callee = false) →
      c ∈ get_leaf_nodes (build_dependency_graph funcs rels) rels) := by
  refine ⟨?_, ?_, ?_⟩
  · intro funcs rels r hr hcaller hcallee
    exact populateDependsOn_adds rels _ r hr hcaller hcallee
  · intro funcs rels c
    exact get_leaf_nodes_spec _ rels _ c
  · intro funcs rels c hk hnone
    unfold get_leaf_nodes
    rw [get_leaf_nodes_spec]
    have hkeys : dictKeys (build_dependency_graph funcs rels) =
        dictKeys (buildComponentsInit funcs) :=
      populateDependsOn_keys rels _
    refine ⟨by rw [hkeys]; exact hk, ?_⟩
    intro r hr
    rintro ⟨hcall, hknown⟩
    rw [dictContains_iff, hkeys, ← dictContains_iff] at hknown
    rw [hnone r hr hcall] at hknown
    cases hknown

/-- Witness for C2 at a concrete map `{A, B}` with one dangling
relationship `A → X` (`X` not a key): `X` lands in `A`'s `depends_on`
and `A` is still a leaf. -/
theorem C2_dependency_graph_witness :
    (∃ nd,
      dictLookup
        (build_dependency_graph
          [{ id := "A", depends_on := [] }, { id := "B", depends_on := [] }]
          [{ caller := "A", callee := "X" }]) "A" = some nd ∧
      "X" ∈ nd.depends_on) ∧
    "A" ∈ get_leaf_nodes
      (build_dependency_graph
        [{ id := "A", depends_on := [] }, { id := "B", depends_on := [] }]
        [{ caller := "A", callee := "X" }])
      [{ caller := "A", callee := "X" }] :=
  ⟨C2_dependency_graph.1 _ _ { caller := "A", callee := "X" } (by decide)
      (by decide) (by decide),
    C2_dependency_graph.2.2 _ _ "A" (by decide) (by decide)⟩

/-- C3 counterexample: the Java analyzer performs no relationship
deduplication — on a class with two same-type field declarations sharing
one source row it returns two entries with identical
`(caller, callee, call_line)`. -/
theorem C3_counterexample :
    ({ caller := "m.A", callee := "Foo", call_line := 2, is_resolved := false } :
        CallRelationship) ∈ (analyzeJavaFile jDupCtx jDupRoot).2 ∧
    (analyzeJavaFile jDupCtx jDupRoot).2.count
      { caller := "m.A", callee := "Foo", call_line := 2, is_resolved := false } = 2 ∧
    decide (((analyzeJavaFile jDupCtx jDupRoot).2.map relKey).Nodup) = false := by
  refine ⟨by decide, by decide, by decide⟩

/-- C3 (amended): relationship lists built through the shared
`_add_relationship` helper (as the C, C++, C# and PHP analyzers do for
every emitted relationship) contain no two entries with identical
`(caller, callee, call_line)`; the Java analyzer appends relationships
directly without deduplication and can return identical triples twice. -/
theorem C3_relationship_dedup :
    (∀ cands : List CallRelationship,
      ((addRelationships RelState.empty cands).rels.map relKey).Nodup) ∧
    ((cAnalyze cWithMainCtx cWithMainRoot).2.map relKey).Nodup ∧
    (analyzeJavaFile jDupCtx jDupRoot).2.count
      { caller := "m.A", callee := "Foo", call_line := 2, is_resolved := false } = 2 := by
  refine ⟨?_, ?_, ?_⟩
  · intro cands
    exact addRelationships_nodup cands RelState.empty (by simp [RelState.empty])
      (by simp [RelState.empty])
  · decide
  · decide

/-- C4 counterexample: the field-type edge emitted by the Java analyzer
carries the bare type name `Foo` as callee, not a dotted component id
prefixed by the module path `m`. -/
theorem C4_counterexample :
    ({ caller := "m.A", callee := "Foo", call_line := 2, is_resolved := false } :
        CallRelationship) ∈ (analyzeJavaFile jDupCtx jDupRoot).2 ∧
    strStartsWith "Foo" (jGetModulePath "m.java" ++ ".") = false := by
  constructor
  · decide
  · decide

/-- C4 (amended): every relationship returned by the Java analyzer has a
module-path-prefixed component id as caller, and inheritance /
interface-implementation edges also have component ids as callee; but
field-type, method-invocation and object-creation edges carry the bare
type name as callee. -/
theorem C4_relationship_endpoints :
    (∀ (ctx : JCtx) (topKeys : List String) (root : TSNode),
      ((jExtractRelationships ctx topKeys root).map CallRelationship.caller).all
        (fun c => strStartsWith c (jGetModulePath ctx.filePath ++ ".")) = true) ∧
    ({ caller := "m.A", callee := "m.Base", call_line := 1, is_resolved := false } :
        CallRelationship) ∈ (analyzeJavaFile jDupCtx jDupRoot).2 ∧
    ({ caller := "m.A.go", callee := "Bar", call_line := 3, is_resolved := false } :
        CallRelationship) ∈ (analyzeJavaFile jDupCtx jDupRoot).2 ∧
    ({ caller := "m.A", callee := "Baz", call_line := 3, is_resolved := false } :
        CallRelationship) ∈ (analyzeJavaFile jDupCtx jDupRoot).2 := by
  refine ⟨?_, by decide, by decide, by decide⟩
  intro ctx topKeys root
  rw [List.all_eq_true]
  intro c hc
  rcases List.mem_map.mp hc with ⟨r, hr, rfl⟩
  unfold jExtractRelationships at hr
  rcases List.mem_flatMap.mp hr with ⟨pair, _, hin⟩
  obtain ⟨nm, hnm⟩ := jRelsAt_caller ctx topKeys pair r hin
  rw [hnm]
  exact jGetComponentId_startsWith _ _

/-- C5 counterexample: the C analyzer extracts both each function
definition and its inner function declarator, so the two-function source
yields four node records, not exactly two. -/
theorem C5_counterexample :
    (cAnalyze cTwoFuncCtx cTwoFuncRoot).1.length = 4 ∧
    (cAnalyze cTwoFuncCtx cTwoFuncRoot).1.map Node.name =
      ["bar", "bar", "foo", "foo"] := by
  constructor
  · decide
  · decide

/-- C5 (amended): analyzing `void bar(){} void foo(){ bar(); }` yields
four node records — `bar` and `foo` each appearing twice, once from the
function definition and once from its inner function declarator — one
relationship from `foo` to `bar` with `is_resolved = true`, and no node
named `main` even when a `main` function is also defined in the file. -/
theorem C5_c_fixture :
    (cAnalyze cTwoFuncCtx cTwoFuncRoot).1.map Node.name =
      ["bar", "bar", "foo", "foo"] ∧
    (cAnalyze cTwoFuncCtx cTwoFuncRoot).2 =
      [{ caller := "test.foo", callee := "test.bar", call_line := 1,
         is_resolved := true }] ∧
    (cAnalyze cWithMainCtx cWithMainRoot).1.map Node.name =
      ["bar", "bar", "foo", "foo"] ∧
    ((cAnalyze cWithMainCtx cWithMainRoot).1.map Node.name).contains "main" =
      false ∧
    ({ caller := "test.foo", callee := "test.bar", call_line := 1,
       is_resolved := true } : CallRelationship) ∈
      (cAnalyze cWithMainCtx cWithMainRoot).2 := by
  refine ⟨by decide, by decide, by decide, by decide, by decide⟩

/-- C6 counterexample: for a C# class with a method, the returned nodes
list contains only the class node — no node for the method. -/
theorem C6_counterexample :
    (csExtractFunctions csGreeterCtx csGreeterRoot).map Node.name =
      ["Greeter"] ∧
    ((csExtractFunctions csGreeterCtx csGreeterRoot).map Node.id).contains
      "test.Greeter.Hello" = false := by
  constructor
  · decide
  · decide

/-- C6 (amended): the C# analyzer registers methods/constructors
declared inside classes only in its internal `top_level_nodes` index
(keyed `module.class.method`) for call resolution; the returned nodes
list contains the class node but no node for such a method — the
method branch of the traversal appends a node only when there is no
containing class. -/
theorem C6_csharp_methods :
    (csExtractFunctions csGreeterCtx csGreeterRoot).map
        (fun n => (n.name, n.component_type)) = [("Greeter", "class")] ∧
    csTopLevelKeys csGreeterCtx csGreeterRoot =
      ["Greeter", "test.Greeter.Hello"] ∧
    (∀ (ctx : CCtx) (n : TSNode) (frames : List (TSNode × Nat)),
      (n.ty = "method_declaration" ∨ n.ty = "constructor_declaration" ∨
        n.ty = "local_function_statement") →
      (csFindContainingClass (frames.map Prod.fst)).isSome = true →
      csNodesAt ctx (n, frames) = []) := by
  refine ⟨by decide, by decide, ?_⟩
  intro ctx n frames hty hsome
  obtain ⟨cls, hcls⟩ := Option.isSome_iff_exists.mp hsome
  have hne1 : n.ty ≠ "class_declaration" := by
    rcases hty with h | h | h <;> rw [h] <;> decide
  have hne2 : n.ty ≠ "interface_declaration" := by
    rcases hty with h | h | h <;> rw [h] <;> decide
  unfold csNodesAt
  simp only [hne1, hne2, if_false, if_neg, hty, hcls]
  simp

/-- Witness for C6's method-branch statement at the fixture's method
node with its containing class frame. -/
theorem C6_csharp_methods_witness :
    csNodesAt csGreeterCtx (csHelloMethod, [(csGreeterClass, 2)]) = [] :=
  C6_csharp_methods.2.2 csGreeterCtx csHelloMethod [(csGreeterClass, 2)]
    (by decide) (by decide)

theorem shouldExclude_of_segment (excl path : List String) (part : String)
    (hmem : part ∈ path) (hmatch : matchesPattern part excl = true) :
    shouldExclude excl path = true := by
  unfold shouldExclude
  rw [Bool.or_eq_true]
  exact Or.inl (List.any_eq_true.mpr ⟨part, hmem, hmatch⟩)

/-- C7: the repository scanner checks exclusion before inclusion and
gives it priority — an entry is omitted when any segment of its path (or
its bare name) matches an exclude glob, a subtree under a `node_modules`
segment contributes nothing even when its files match a supplied include
pattern, and the include test applies only to files, never to
directories. -/
theorem C7_scanner_filtering :
    (∀ (incl excl dirPath : List String) (e : FSEntry) (es : List FSEntry),
      shouldExclude excl (dirPath ++ [e.name]) = true →
      scanChildren incl excl dirPath (e :: es) = scanChildren incl excl dirPath es) ∧
    (∀ (excl path : List String) (part : String), part ∈ path →
      matchesPattern part excl = true → shouldExclude excl path = true) ∧
    (∀ (incl excl dirPath : List String) (nm : String) (sub : List FSEntry)
        (es : List FSEntry),
      shouldExclude excl (dirPath ++ [nm]) = false →
      scanChildren incl excl dirPath (.dir nm sub :: es) =
        ScanTree.dir nm (dirPath ++ [nm])
            (scanChildren incl excl (dirPath ++ [nm]) sub) ::
          scanChildren incl excl dirPath es) ∧
    (∀ (incl dirPath : List String) (entries : List FSEntry),
      "node_modules" ∈ dirPath →
      scanChildren incl defaultExcludePatterns dirPath entries = []) ∧
    scanTreeFiles
      (scanDirectory ["*.js"] defaultExcludePatterns ["repo"] "repo" repoFixture) =
      [["repo", "src", "app.js"]] := by
  refine ⟨?_, ?_, ?_, ?_, by decide⟩
  · intro incl excl dirPath e es h
    cases e <;> simp_all [scanChildren, scanEntry, FSEntry.name]
  · exact shouldExclude_of_segment
  · intro incl excl dirPath nm sub es h
    simp [scanChildren, scanEntry, h]
  · intro incl dirPath entries hmem
    induction entries with
    | nil => rfl
    | cons e es ih =>
        have hexcl : shouldExclude defaultExcludePatterns
            (dirPath ++ [e.name]) = true :=
          shouldExclude_of_segment _ _ "node_modules"
            (List.mem_append_left _ hmem) (by decide)
        cases e <;> simp_all [scanChildren, scanEntry, FSEntry.name]

/-- Witness for C7 at concrete directories: a `node_modules` entry is
skipped, a path with a `node_modules` segment is excluded, a plain
directory is scanned with no include test, and a subtree under
`node_modules` is empty. -/
theorem C7_scanner_filtering_witness :
    scanChildren ["*.js"] defaultExcludePatterns ["repo"]
        [.dir "node_modules" [.file "a.js" 1 "t"]] =
      scanChildren ["*.js"] defaultExcludePatterns ["repo"] [] ∧
    shouldExclude defaultExcludePatterns ["repo", "node_modules", "x.js"] = true ∧
    scanChildren ["*.py"] defaultExcludePatterns ["repo"]
        [.dir "src" [.file "app.js" 20 "t2"]] =
      ScanTree.dir "src" ["repo", "src"]
          (scanChildren ["*.py"] defaultExcludePatterns ["repo", "src"]
            [.file "app.js" 20 "t2"]) ::
        scanChildren ["*.py"] defaultExcludePatterns ["repo"] [] ∧
    scanChildren ["*.js"] defaultExcludePatterns ["repo", "node_modules"]
        [.file "a.js" 1 "t"] = [] :=
  ⟨C7_scanner_filtering.1 _ _ _ _ _ (by decide),
    C7_scanner_filtering.2.1 _ _ "node_modules" (by decide) (by decide),
    C7_scanner_filtering.2.2.1 _ _ _ _ _ _ (by decide),
    C7_scanner_filtering.2.2.2.1 _ _ _ (by decide)⟩

/-- Unfolding of one `_trace_recursive` step on a found component with
exactly two dependencies: both recursive calls receive the same freshly
unioned visited set. -/
theorem traceRecursiveGo_two_deps (comps : List (String × CompDump))
    (cid : String) (visited : List String) (cur k : Nat) (d : CompDump)
    (a b : String) (hvis : cid ∉ visited) (hlkp : dictLookup comps cid = some d)
    (hdeps : d.depends_on = [a, b]) :
    traceRecursiveGo comps cid visited cur (k + 1) =
      traceHeaderLines cid d cur ++
      [pyRepeat "    " cur ++ "      │  └─ Depends on (" ++ toString (2 : Nat) ++
        " components):"] ++
      ((pyRepeat "    " cur ++ "      │    ├─ " ++ a) ::
        traceRecursiveGo comps a (pySetAdd visited cid) (cur + 1) k) ++
      ((pyRepeat "    " cur ++ "      │    ├─ " ++ b) ::
        traceRecursiveGo comps b (pySetAdd visited cid) (cur + 1) k) := by
  conv_lhs => unfold traceRecursiveGo
  rw [if_neg hvis, hlkp]
  simp only [hdeps]
  rw [if_pos (List.cons_ne_nil a [b])]
  norm_num [List.flatMap_cons, List.flatMap_nil, List.append_assoc]

/-- C8: recursive API tracing stops with "(Max depth reached)" once the
current depth reaches `max_depth` and visits nothing further; a
component already in the current branch's visited set stops with the
circular-reference message; every recursive call receives the same
freshly-unioned copy of the visited set, so sibling branches do not
block each other; and on the chain `q1 → q2 → q3 → q4` with
`max_depth = 2`, `q2` is printed at depth 1, the call for `q3` at depth
2 prints "(Max depth reached)", and `q4` is never visited. -/
theorem C8_trace_recursion :
    (∀ (comps : List (String × CompDump)) (cid : String) (visited : List String)
        (cur maxd : Nat), maxd ≤ cur →
      traceRecursive comps cid visited cur maxd =
        [pyRepeat "    " cur ++ "    (Max depth reached)"]) ∧
    (∀ (comps : List (String × CompDump)) (cid : String) (visited : List String)
        (cur maxd : Nat), cur < maxd → cid ∈ visited →
      traceRecursive comps cid visited cur maxd =
        [pyRepeat "    " cur ++ "    (Circular reference detected, stopping)"]) ∧
    (∀ (comps : List (String × CompDump)) (cid : String) (visited : List String)
        (cur maxd : Nat) (d : CompDump) (a b : String),
      cur < maxd → cid ∉ visited → dictLookup comps cid = some d →
      d.depends_on = [a, b] →
      traceRecursive comps cid visited cur maxd =
        traceHeaderLines cid d cur ++
        [pyRepeat "    " cur ++ "      │  └─ Depends on (" ++ toString (2 : Nat) ++
          " components):"] ++
        ((pyRepeat "    " cur ++ "      │    ├─ " ++ a) ::
          traceRecursive comps a (pySetAdd visited cid) (cur + 1) maxd) ++
        ((pyRepeat "    " cur ++ "      │    ├─ " ++ b) ::
          traceRecursive comps b (pySetAdd visited cid) (cur + 1) maxd)) ∧
    (pyRepeat "    " 2 ++ "    (Max depth reached)") ∈
      trace_api_calls "/a" chainComponents true 2 ∧
    (pyRepeat "    " 1 ++ "      ├─ q2") ∈
      trace_api_calls "/a" chainComponents true 2 ∧
    (trace_api_calls "/a" chainComponents true 2).all
      (fun l => !(strContains l "q4")) = true := by
  refine ⟨?_, ?_, ?_, by decide, by decide, by decide⟩
  · intro comps cid visited cur maxd h
    unfold traceRecursive
    rw [Nat.sub_eq_zero_of_le h]
    rfl
  · intro comps cid visited cur maxd hlt hvis
    unfold traceRecursive
    have h1 : maxd - cur = (maxd - cur - 1) + 1 := by omega
    rw [h1]
    unfold traceRecursiveGo
    rw [if_pos hvis]
  · intro comps cid visited cur maxd d a b hlt hvis hlkp hdeps
    unfold traceRecursive
    have h1 : maxd - cur = (maxd - cur - 1) + 1 := by omega
    have h2 : maxd - (cur + 1) = maxd - cur - 1 := by omega
    rw [h1, h2]
    exact traceRecursiveGo_two_deps comps cid visited cur (maxd - cur - 1) d a b
      hvis hlkp hdeps

/-- Witness for C8: the depth guard, circular guard and sibling
expansion at concrete inputs. -/
theorem C8_trace_recursion_witness :
    traceRecursive chainComponents "q1" [] 2 2 =
      [pyRepeat "    " 2 ++ "    (Max depth reached)"] ∧
    traceRecursive chainComponents "q1" ["q1"] 0 5 =
      [pyRepeat "    " 0 ++ "    (Circular reference detected, stopping)"] ∧
    traceRecursive [("p", chainComp "p" ["u", "v"] none)] "p" [] 0 3 =
      traceHeaderLines "p" (chainComp "p" ["u", "v"] none) 0 ++
        [pyRepeat "    " 0 ++ "      │  └─ Depends on (2 components):"] ++
        ((pyRepeat "    " 0 ++ "      │    ├─ " ++ "u") ::
          traceRecursive [("p", chainComp "p" ["u", "v"] none)] "u"
            (pySetAdd [] "p") (0 + 1) 3) ++
        ((pyRepeat "    " 0 ++ "      │    ├─ " ++ "v") ::
          traceRecursive [("p", chainComp "p" ["u", "v"] none)] "v"
            (pySetAdd [] "p") (0 + 1) 3) :=
  ⟨C8_trace_recursion.1 _ _ _ _ _ (by decide),
    C8_trace_recursion.2.1 _ _ _ _ _ (by decide) (by decide),
    C8_trace_recursion.2.2.1 _ _ _ _ _ _ "u" "v" (by decide) (by decide)
      (by decide) (by decide)⟩

/-- C10: every node statement `visualize_results` emits names a key of
the components map (in both the default and the `--filter-empty-node`
mode), while one edge statement is emitted per `(component, depends_on
entry)` pair regardless of whether the entry is a key — so a dangling
`depends_on` entry yields an edge statement referencing an id with no
node statement. -/
theorem C10_visualize_nodes_edges :
    (∀ (comps : List (String × CompDump)) (filterEmptyNodes : Bool),
      (vizNodeIds comps filterEmptyNodes).all
        (fun i => (dictKeys comps).contains i) = true) ∧
    (∀ (comps : List (String × CompDump)) (cid : String) (cd : CompDump)
        (dep : String), (cid, cd) ∈ comps → dep ∈ cd.depends_on →
      (cid, dep) ∈ vizRelationships comps) ∧
    ("a.f", "x.g") ∈ vizRelationships vizDanglingComponents ∧
    vizNodeIds vizDanglingComponents false = ["a.f"] ∧
    vizNodeIds vizDanglingComponents true = ["a.f"] ∧
    strContains (visualize_results vizDanglingComponents false)
      "  \"a.f\" -> \"x.g\";\n" = true ∧
    strContains (visualize_results vizDanglingComponents false)
      "\"x.g\" [label=" = false := by
  refine ⟨?_, ?_, by decide, by decide, by decide, by decide, by decide⟩
  · intro comps filterEmptyNodes
    rw [List.all_eq_true]
    intro i hi
    unfold vizNodeIds at hi
    split at hi
    · exact List.elem_iff.mpr (List.mem_filter.mp hi).1
    · exact List.elem_iff.mpr hi
  · intro comps cid cd dep hmem hdep
    unfold vizRelationships
    exact List.mem_flatMap.mpr ⟨(cid, cd), hmem, List.mem_map.mpr ⟨dep, hdep, rfl⟩⟩

/-- Witness for C10's unconditional-edge statement at the dangling
fixture. -/
theorem C10_visualize_nodes_edges_witness :
    ("a.f", "x.g") ∈ vizRelationships vizDanglingComponents :=
  C10_visualize_nodes_edges.2.1 vizDanglingComponents "a.f"
    (chainComp "f" ["x.g"] none) "x.g" (by decide) (by decide)

/-- C1: the api-url concatenation of a Java controller method joins the
class-level route prefix P and the method route M with exactly one slash
at the join — dropping one slash when P ends with `/` and M starts with
`/`, inserting one when neither contributes one, concatenating directly
otherwise — and on a `@RestController @RequestMapping("/chat")` class
with a `@PostMapping("/completions/stream")` method the stored api_url
is `/chat/completions/stream`. -/
theorem C1_api_url_concatenation :
    (∀ P M : String,
      (strEndsWith P "/" = true → strStartsWith M "/" = true →
        combineApiUrl P M = P ++ strDrop M 1) ∧
      (strEndsWith P "/" = false → strStartsWith M "/" = false →
        combineApiUrl P M = P ++ "/" ++ M) ∧
      (strEndsWith P "/" ≠ strStartsWith M "/" →
        combineApiUrl P M = P ++ M)) ∧
    (analyzeJavaFile ragCtx ragRoot).1.map (fun n => (n.name, n.api_url)) =
      [("RAGService", none),
       ("RAGService.chatCompletionsStream", some "/chat/completions/stream")] := by
  refine ⟨?_, by decide⟩
  intro P M
  refine ⟨?_, ?_, ?_⟩
  · intro h1 h2
    unfold combineApiUrl
    rw [if_pos ⟨h1, h2⟩]
  · intro h1 h2
    unfold combineApiUrl
    rw [if_neg (by simp [h1]), if_pos ⟨h1, h2⟩]
  · intro hne
    unfold combineApiUrl
    cases he : strEndsWith P "/" with
    | true =>
        have hs : strStartsWith M "/" = false := by
          cases hm : strStartsWith M "/"
          · rfl
          · rw [he, hm] at hne
            exact absurd rfl hne
        rw [if_neg (by simp [hs]), if_neg (by simp [he])]
    | false =>
        have hs : strStartsWith M "/" = true := by
          cases hm : strStartsWith M "/"
          · rw [he, hm] at hne
            exact absurd rfl hne
          · rfl
        rw [if_neg (by simp [he]), if_neg (by simp [hs])]

/-- Witness for C1's three concatenation cases at concrete prefixes and
routes, the fixture's pair included. -/
theorem C1_api_url_concatenation_witness :
    combineApiUrl "/chat/" "/stream" = "/chat/" ++ strDrop "/stream" 1 ∧
    combineApiUrl "/chat" "stream" = "/chat" ++ "/" ++ "stream" ∧
    combineApiUrl "/chat" "/completions/stream" =
      "/chat" ++ "/completions/stream" :=
  ⟨(C1_api_url_concatenation.1 "/chat/" "/stream").1 (by decide) (by decide),
    (C1_api_url_concatenation.1 "/chat" "stream").2.1 (by decide) (by decide),
    (C1_api_url_concatenation.1 "/chat" "/completions/stream").2.2 (by decide)⟩

end CallGraph
